import Mathlib

/-!
# Behavioral motion control: steering and integration engine

A shallow embedding of the flocking core of the repository
(`Vector3D.h`, `Config.h`, `Boid.cpp`, `Predator.cpp` and `updateSimulation`
of `main.cpp`) together with theorems about it.

Modelling conventions
* `float` is modelled by the real numbers `ℝ` (exact arithmetic) and `sqrt`
  by `Real.sqrt`; rounding, overflow, infinities and NaN are outside this
  reading. The literals `2.0f`, `0.5f`, `0.1f`, ... are the exact rationals they
  denote. Because `Real.sqrt` and real division are not executable, the
  definitions live in a `noncomputable section`.
* a second reading of `Vector3D.h` and `Boid::update` in IEEE 754 binary32
  (`F32`, `Vector3D32`, `Boid32`) evaluates the code where underflow or overflow
  of the squares in `magnitude()` makes it part from the exact reading.
* `std::vector` and `std::deque` are lists; the front of a deque is the head.
* mutation is explicit state passing: a member function that mutates its
  object returns the new object.
* `int count` is a natural number (populations are far below `2^31`).
* `rand()` is a stream of naturals consumed through a cursor kept in the
  simulation state; `RAND_MAX` is a field of that state, and so is the order in
  which the three `rand()` calls of `initGoal` are evaluated.
-/

noncomputable section

/-! ## Vector3D.h -/

/-- Class `Vector3D`: three `float` components. -/
@[ext]
structure Vector3D where
  x : ℝ
  y : ℝ
  z : ℝ

namespace Vector3D

/-- Default constructor `Vector3D()`: all components zero. -/
def zero : Vector3D := ⟨0, 0, 0⟩

/-- Member `operator+`. -/
def add (a v : Vector3D) : Vector3D := ⟨a.x + v.x, a.y + v.y, a.z + v.z⟩

/-- Member `operator-`. -/
def sub (a v : Vector3D) : Vector3D := ⟨a.x - v.x, a.y - v.y, a.z - v.z⟩

/-- Member `operator*(float s)`. -/
def mul (a : Vector3D) (s : ℝ) : Vector3D := ⟨a.x * s, a.y * s, a.z * s⟩

/-- Member `operator/(float s)`: `s != 0 ? Vector3D(x / s, y / s, z / s) : Vector3D()`. -/
def div (a : Vector3D) (s : ℝ) : Vector3D :=
  if s ≠ 0 then ⟨a.x / s, a.y / s, a.z / s⟩ else zero

instance : Add Vector3D := ⟨add⟩
instance : Sub Vector3D := ⟨sub⟩
instance : HMul Vector3D ℝ Vector3D := ⟨mul⟩
instance : HDiv Vector3D ℝ Vector3D := ⟨div⟩

/-- Member `magnitude`: `sqrt(x * x + y * y + z * z)`. -/
def magnitude (a : Vector3D) : ℝ := Real.sqrt (a.x * a.x + a.y * a.y + a.z * a.z)

/-- Member `magnitudeSquared`. -/
def magnitudeSquared (a : Vector3D) : ℝ := a.x * a.x + a.y * a.y + a.z * a.z

/-- Member `normalize`: `mag > 0 ? *this / mag : Vector3D()`. -/
def normalize (a : Vector3D) : Vector3D :=
  let mag := a.magnitude
  if mag > 0 then a / mag else zero

/-- Member `limit`: `mag > maxMag ? normalize() * maxMag : *this`. -/
def limit (a : Vector3D) (maxMag : ℝ) : Vector3D :=
  let mag := a.magnitude
  if mag > maxMag then a.normalize * maxMag else a

/-- Member `dot`. -/
def dot (a v : Vector3D) : ℝ := a.x * v.x + a.y * v.y + a.z * v.z

/-- Member `cross`. -/
def cross (a v : Vector3D) : Vector3D :=
  ⟨a.y * v.z - a.z * v.y, a.z * v.x - a.x * v.z, a.x * v.y - a.y * v.x⟩

/-- Member `distanceTo`: `(*this - v).magnitude()`. -/
def distanceTo (a v : Vector3D) : ℝ := (a - v).magnitude

/-- Member `isZero`: `x == 0 && y == 0 && z == 0`. -/
def isZero (a : Vector3D) : Prop := a.x = 0 ∧ a.y = 0 ∧ a.z = 0

instance (a : Vector3D) : Decidable a.isZero :=
  inferInstanceAs (Decidable (a.x = 0 ∧ a.y = 0 ∧ a.z = 0))

end Vector3D

/-! ## Config.h -/

def WORLD_SIZE : ℝ := 100
def WORLD_HALF : ℝ := WORLD_SIZE / 2
def MAX_SPEED : ℝ := 2
def MIN_SPEED : ℝ := 1 / 2
def MAX_FORCE : ℝ := 1 / 10
def SEPARATION_RADIUS : ℝ := 5
def ALIGNMENT_RADIUS : ℝ := 15
def COHESION_RADIUS : ℝ := 20
def OBSTACLE_RADIUS : ℝ := 15
def PREDATOR_RADIUS : ℝ := 25
def MAX_TRAIL_LENGTH : ℕ := 30

/-! ## Obstacle.h, Boid.h, Boid.cpp -/

/-- Class `Obstacle`. -/
structure Obstacle where
  position : Vector3D
  radius : ℝ
  color : Vector3D

/-- Class `Boid`; `trail` is the deque, most recent entry first. -/
structure Boid where
  position : Vector3D
  velocity : Vector3D
  acceleration : Vector3D
  color : Vector3D
  bankAngle : ℝ
  trail : List Vector3D

namespace Boid

/-- Member `Boid::applyForce`: `acceleration += force`. -/
def applyForce (b : Boid) (force : Vector3D) : Boid :=
  { b with acceleration := b.acceleration + force }

/-- Member `Boid::update`: banking, velocity integration, speed clamp, position
integration, trail push and eviction, acceleration reset. -/
def update (b : Boid) : Boid :=
  let turnAxis := b.velocity.cross b.acceleration
  let turnRate := b.acceleration.magnitude
  let targetBank := turnAxis.y * turnRate * 50
  let targetBank := max (-45) (min 45 targetBank)
  let bankAngle := b.bankAngle + (targetBank - b.bankAngle) * (1 / 10)
  let velocity := b.velocity + b.acceleration
  let speed := velocity.magnitude
  let velocity :=
    if speed > MAX_SPEED then velocity.normalize * MAX_SPEED
    else if speed < MIN_SPEED ∧ speed > 0 then velocity.normalize * MIN_SPEED
    else velocity
  let position := b.position + velocity
  let trail := position :: b.trail
  let trail := if trail.length > MAX_TRAIL_LENGTH then trail.dropLast else trail
  { position := position, velocity := velocity, acceleration := Vector3D.zero,
    color := b.color, bankAngle := bankAngle, trail := trail }

/-- Loop body of `Boid::separate`: accumulates `steer` and `count`. -/
def separateStep (b : Boid) (acc : Vector3D × ℕ) (other : Boid) : Vector3D × ℕ :=
  let d := b.position.distanceTo other.position
  if d > 0 ∧ d < SEPARATION_RADIUS then
    let diff := (b.position - other.position).normalize / d
    (acc.1 + diff, acc.2 + 1)
  else acc

/-- Member `Boid::separate`. -/
def separate (b : Boid) (boids : List Boid) : Vector3D :=
  let r := boids.foldl (separateStep b) (Vector3D.zero, 0)
  let steer := r.1
  let count := r.2
  if count > 0 then
    let steer := steer / (count : ℝ)
    let steer := steer.normalize * MAX_SPEED - b.velocity
    steer.limit MAX_FORCE
  else steer

/-- Loop body of `Boid::align`: accumulates `avgVelocity` and `count`. -/
def alignStep (b : Boid) (acc : Vector3D × ℕ) (other : Boid) : Vector3D × ℕ :=
  let d := b.position.distanceTo other.position
  if d > 0 ∧ d < ALIGNMENT_RADIUS then (acc.1 + other.velocity, acc.2 + 1) else acc

/-- Member `Boid::align`. -/
def align (b : Boid) (boids : List Boid) : Vector3D :=
  let r := boids.foldl (alignStep b) (Vector3D.zero, 0)
  let avgVelocity := r.1
  let count := r.2
  if count > 0 then
    let avgVelocity := avgVelocity / (count : ℝ)
    let avgVelocity := avgVelocity.normalize * MAX_SPEED
    (avgVelocity - b.velocity).limit MAX_FORCE
  else Vector3D.zero

/-- Member `Boid::seek`. -/
def seek (b : Boid) (target : Vector3D) : Vector3D :=
  let desired := (target - b.position).normalize * MAX_SPEED
  (desired - b.velocity).limit MAX_FORCE

/-- Loop body of `Boid::cohere`: accumulates `avgPosition` and `count`. -/
def cohereStep (b : Boid) (acc : Vector3D × ℕ) (other : Boid) : Vector3D × ℕ :=
  let d := b.position.distanceTo other.position
  if d > 0 ∧ d < COHESION_RADIUS then (acc.1 + other.position, acc.2 + 1) else acc

/-- Member `Boid::cohere`. -/
def cohere (b : Boid) (boids : List Boid) : Vector3D :=
  let r := boids.foldl (cohereStep b) (Vector3D.zero, 0)
  let avgPosition := r.1
  let count := r.2
  if count > 0 then
    let avgPosition := avgPosition / (count : ℝ)
    b.seek avgPosition
  else Vector3D.zero

/-- Member `Boid::flee`. -/
def flee (b : Boid) (target : Vector3D) (radius : ℝ) : Vector3D :=
  let d := b.position.distanceTo target
  if d < radius then
    let desired := (b.position - target).normalize * MAX_SPEED
    let strength := (radius - d) / radius
    (desired - b.velocity).limit (MAX_FORCE * 2) * strength
  else Vector3D.zero

/-- Loop body of `Boid::avoidObstacles`: accumulates `steer`. -/
def avoidStep (b : Boid) (steer : Vector3D) (obs : Obstacle) : Vector3D :=
  let d := b.position.distanceTo obs.position
  let avoidDist := obs.radius + OBSTACLE_RADIUS
  if d < avoidDist then
    let away := (b.position - obs.position).normalize
    let strength := (avoidDist - d) / avoidDist
    steer + away * strength
  else steer

/-- Member `Boid::avoidObstacles`. -/
def avoidObstacles (b : Boid) (obstacles : List Obstacle) : Vector3D :=
  let steer := obstacles.foldl (avoidStep b) Vector3D.zero
  if ¬ steer.isZero then
    (steer.normalize * MAX_SPEED - b.velocity).limit (MAX_FORCE * 2)
  else steer

/-- One axis of `Boid::containWithinBounds`: the component of `steer` written
(or left at its initial zero) for the coordinate `c`. -/
def containAxis (c margin strength : ℝ) : ℝ :=
  if c > margin then -strength * (c - margin)
  else if c < -margin then -strength * (c + margin)
  else 0

/-- Member `Boid::containWithinBounds`. -/
def containWithinBounds (b : Boid) : Vector3D :=
  let margin := WORLD_HALF * (8 / 10)
  let strength : ℝ := 1 / 2
  let steer : Vector3D :=
    ⟨containAxis b.position.x margin strength,
     containAxis b.position.y margin strength,
     containAxis b.position.z margin strength⟩
  steer.limit MAX_FORCE

end Boid

/-! ## Predator.h, Predator.cpp -/

/-- Class `Predator`. -/
structure Predator where
  position : Vector3D
  velocity : Vector3D
  size : ℝ
  trail : List Vector3D

namespace Predator

/-- Loop body of the nearest-boid scan of `Predator::update`: accumulates
`nearestDist` and `nearestPos`. -/
def nearestStep (p : Predator) (acc : ℝ × Vector3D) (boid : Boid) : ℝ × Vector3D :=
  let d := p.position.distanceTo boid.position
  if d < acc.1 then (d, boid.position) else acc

/-- Member `Predator::update`. -/
def update (p : Predator) (boids : List Boid) : Predator :=
  let r := boids.foldl (nearestStep p) (WORLD_SIZE * 2, p.position)
  let nearestPos := r.2
  let desired := (nearestPos - p.position).normalize * (MAX_SPEED * (7 / 10))
  let steer := (desired - p.velocity).limit (MAX_FORCE * (1 / 2))
  let velocity := (p.velocity + steer).limit (MAX_SPEED * (8 / 10))
  let margin := WORLD_HALF * (9 / 10)
  let velocity : Vector3D :=
    if p.position.x > margin then { velocity with x := velocity.x - 1 / 10 } else velocity
  let velocity : Vector3D :=
    if p.position.x < -margin then { velocity with x := velocity.x + 1 / 10 } else velocity
  let velocity : Vector3D :=
    if p.position.y > margin then { velocity with y := velocity.y - 1 / 10 } else velocity
  let velocity : Vector3D :=
    if p.position.y < -margin then { velocity with y := velocity.y + 1 / 10 } else velocity
  let velocity : Vector3D :=
    if p.position.z > margin then { velocity with z := velocity.z - 1 / 10 } else velocity
  let velocity : Vector3D :=
    if p.position.z < -margin then { velocity with z := velocity.z + 1 / 10 } else velocity
  let position := p.position + velocity
  let trail := position :: p.trail
  let trail := if trail.length > MAX_TRAIL_LENGTH * 2 then trail.dropLast else trail
  { position := position, velocity := velocity, size := p.size, trail := trail }

end Predator

/-! ## main.cpp: the simulation state and `updateSimulation` -/

/-- The globals of `main.cpp` that `updateSimulation` reads or writes: behaviour
weights, the pause and enable flags, the simulation objects, and the state of
`rand()` (the stream of its future results and a cursor into it). `argOrder` is
the order in which the compiled program evaluates the three constructor arguments
of `initGoal`, which C++ leaves unspecified: argument `i` (0 for x, 1 for y, 2 for
z) is evaluated at position `argOrder i`. -/
structure Simulation where
  separationWeight : ℝ
  alignmentWeight : ℝ
  cohesionWeight : ℝ
  obstacleWeight : ℝ
  predatorWeight : ℝ
  goalWeight : ℝ
  boundaryWeight : ℝ
  paused : Bool
  separationEnabled : Bool
  alignmentEnabled : Bool
  cohesionEnabled : Bool
  obstaclesEnabled : Bool
  predatorEnabled : Bool
  goalEnabled : Bool
  boids : List Boid
  obstacles : List Obstacle
  predator : Predator
  goal : Vector3D
  RAND_MAX : ℕ
  randStream : ℕ → ℕ
  randCursor : ℕ
  argOrder : Equiv.Perm (Fin 3)

namespace Simulation

/-- The expression `(rand() / (float)RAND_MAX - 0.5f) * WORLD_SIZE * 0.6f` of
`initGoal`, for the `k`-th call of `rand()` from the cursor. -/
def goalCoordinate (s : Simulation) (k : ℕ) : ℝ :=
  ((s.randStream (s.randCursor + k) : ℝ) / (s.RAND_MAX : ℝ) - 1 / 2) * WORLD_SIZE * (6 / 10)

/-- Function `initGoal`: three calls of `rand()`, one per constructor argument,
each argument taking the call at its position in the evaluation order. -/
def initGoal (s : Simulation) : Simulation :=
  { s with
    goal := ⟨s.goalCoordinate (s.argOrder 0), s.goalCoordinate (s.argOrder 1),
      s.goalCoordinate (s.argOrder 2)⟩
    randCursor := s.randCursor + 3 }

/-- The `force` accumulated for `boid` in the loop body of `updateSimulation`,
read against the current globals `s` (in particular the current `s.boids`). -/
def boidForce (s : Simulation) (boid : Boid) : Vector3D :=
  let force := Vector3D.zero
  let force :=
    if s.separationEnabled then force + boid.separate s.boids * s.separationWeight else force
  let force :=
    if s.alignmentEnabled then force + boid.align s.boids * s.alignmentWeight else force
  let force :=
    if s.cohesionEnabled then force + boid.cohere s.boids * s.cohesionWeight else force
  let force :=
    if s.obstaclesEnabled then force + boid.avoidObstacles s.obstacles * s.obstacleWeight
    else force
  let force :=
    if s.predatorEnabled then
      force + boid.flee s.predator.position PREDATOR_RADIUS * s.predatorWeight
    else force
  let force := if s.goalEnabled then force + boid.seek s.goal * s.goalWeight else force
  force + boid.containWithinBounds * s.boundaryWeight

/-- One iteration of `for (Boid& boid : boids)`: the element at index `i` is
read, its force computed against the globals, and it is updated in place. -/
def updateBoid (s : Simulation) (i : ℕ) : Simulation :=
  match s.boids[i]? with
  | none => s
  | some boid => { s with boids := s.boids.set i ((boid.applyForce (s.boidForce boid)).update) }

/-- Function `updateSimulation`. -/
def updateSimulation (s : Simulation) : Simulation :=
  if s.paused then s
  else
    let s := if s.predatorEnabled then { s with predator := s.predator.update s.boids } else s
    let s :=
      if s.goalEnabled then
        let r := s.randStream s.randCursor
        let s := { s with randCursor := s.randCursor + 1 }
        if r % 500 = 0 then s.initGoal else s
      else s
    (List.range s.boids.length).foldl updateBoid s

end Simulation

/-! ## Auxiliary definitions used to state the properties -/

namespace Boid

/-- The agent after a run of ticks seen from the agent: for each force of the
list, in order, `applyForce` with it followed by `update`. -/
def run (b : Boid) : List Vector3D → Boid
  | [] => b
  | f :: fs => run ((b.applyForce f).update) fs

/-- The positions the agent has after each `update` of a run, most recent first. -/
def history (b : Boid) : List Vector3D → List Vector3D
  | [] => []
  | f :: fs => history ((b.applyForce f).update) fs ++ [((b.applyForce f).update).position]

/-- Neighbour test shared by `separate`, `align` and `cohere`: the distance `d`
from `b` to `other` satisfies `0 < d < R`. -/
def inRange (b : Boid) (R : ℝ) (other : Boid) : Prop :=
  0 < b.position.distanceTo other.position ∧ b.position.distanceTo other.position < R

instance (b : Boid) (R : ℝ) (other : Boid) : Decidable (b.inRange R other) :=
  inferInstanceAs (Decidable (_ ∧ _))

end Boid

namespace Simulation

/-- Spec-side force of the update-order contract: the sum of each enabled
behaviour's result times its weight, plus `containWithinBounds` times
`boundaryWeight`, for `boid` evaluated against `population`. -/
def weightedSum (s : Simulation) (population : List Boid) (boid : Boid) : Vector3D :=
  [ if s.separationEnabled then boid.separate population * s.separationWeight
    else Vector3D.zero,
    if s.alignmentEnabled then boid.align population * s.alignmentWeight else Vector3D.zero,
    if s.cohesionEnabled then boid.cohere population * s.cohesionWeight else Vector3D.zero,
    if s.obstaclesEnabled then boid.avoidObstacles s.obstacles * s.obstacleWeight
    else Vector3D.zero,
    if s.predatorEnabled then boid.flee s.predator.position PREDATOR_RADIUS * s.predatorWeight
    else Vector3D.zero,
    if s.goalEnabled then boid.seek s.goal * s.goalWeight else Vector3D.zero,
    boid.containWithinBounds * s.boundaryWeight ].foldl (fun acc t => acc + t) Vector3D.zero

/-- Spec-side sequential fold of the update-order contract: `done` holds the
agents already processed (post-update state), the second list the agents still to
process (previous-tick state); the head of the second list sees `done` followed by
the unprocessed agents, itself included, and is moved to `done` once updated. -/
def sequentialFold (s : Simulation) : List Boid → List Boid → List Boid
  | done, [] => done
  | done, boid :: rest =>
    sequentialFold s
      (done ++ [(boid.applyForce (s.weightedSum (done ++ boid :: rest) boid)).update]) rest

/-- Spec-side tick: nothing when paused; otherwise the predator is advanced
first (when enabled), the goal is optionally relocated, and the population is
replaced by the sequential fold. -/
def specTick (s : Simulation) : Simulation :=
  if s.paused then s
  else
    let s := if s.predatorEnabled then { s with predator := s.predator.update s.boids } else s
    let s :=
      if s.goalEnabled then
        if s.randStream s.randCursor % 500 = 0 then
          { s with randCursor := s.randCursor + 1 }.initGoal
        else { s with randCursor := s.randCursor + 1 }
      else s
    { s with boids := s.sequentialFold [] s.boids }

/-- The program state with the default weights of `main.cpp`, every optional
behaviour disabled, not paused, and `b` as the whole population: only boundary
containment acts on `b`. -/
def containOnly (b : Boid) : Simulation :=
  { separationWeight := 3 / 2, alignmentWeight := 1, cohesionWeight := 1,
    obstacleWeight := 2, predatorWeight := 3, goalWeight := 1 / 2, boundaryWeight := 3 / 2,
    paused := false, separationEnabled := false, alignmentEnabled := false,
    cohesionEnabled := false, obstaclesEnabled := false, predatorEnabled := false,
    goalEnabled := false, boids := [b], obstacles := [],
    predator := ⟨Vector3D.zero, Vector3D.zero, 9 / 2, []⟩, goal := Vector3D.zero,
    RAND_MAX := 2147483647, randStream := fun _ => 0, randCursor := 0,
    argOrder := Fin.revPerm }

end Simulation

/-- An agent at rest at `(41, 0, 0)`: one unit outside the containment margin
`0.8 * WORLD_HALF = 40` on the x axis only. -/
def outsideBoid : Boid :=
  { position := ⟨41, 0, 0⟩, velocity := Vector3D.zero, acceleration := Vector3D.zero,
    color := ⟨1, 1, 1⟩, bankAngle := 0, trail := [] }

/-- An agent at the origin moving at speed `1` along `+x`. -/
def slowBoid : Boid :=
  { position := ⟨0, 0, 0⟩, velocity := ⟨1, 0, 0⟩, acceleration := Vector3D.zero,
    color := ⟨1, 1, 1⟩, bankAngle := 0, trail := [] }

/-- An agent at rest at `(-1, 0, 0)`. -/
def nearBoid : Boid :=
  { position := ⟨-1, 0, 0⟩, velocity := ⟨0, 0, 0⟩, acceleration := Vector3D.zero,
    color := ⟨1, 1, 1⟩, bankAngle := 0, trail := [] }

/-- An agent at rest at `(2, 0, 0)`. -/
def eastBoid : Boid :=
  { position := ⟨2, 0, 0⟩, velocity := ⟨0, 0, 0⟩, acceleration := Vector3D.zero,
    color := ⟨1, 1, 1⟩, bankAngle := 0, trail := [] }

/-- An agent at rest at `(300, 0, 0)`, further than `2 * WORLD_SIZE` from the origin. -/
def farBoid : Boid :=
  { position := ⟨300, 0, 0⟩, velocity := ⟨0, 0, 0⟩, acceleration := Vector3D.zero,
    color := ⟨1, 1, 1⟩, bankAngle := 0, trail := [] }

namespace Predator

/-- The value of `nearestPos` after the scan loop of `Predator::update`. -/
def nearestPos (p : Predator) (boids : List Boid) : Vector3D :=
  (boids.foldl (nearestStep p) (WORLD_SIZE * 2, p.position)).2

/-- The three steering statements of `Predator::update` for a given `nearestPos`:
the value of `velocity` before the boundary statements. -/
def chase (p : Predator) (nearestPos : Vector3D) : Vector3D :=
  let desired := (nearestPos - p.position).normalize * (MAX_SPEED * (7 / 10))
  let steer := (desired - p.velocity).limit (MAX_FORCE * (1 / 2))
  (p.velocity + steer).limit (MAX_SPEED * (8 / 10))

/-- The six boundary statements of `Predator::update` applied to `velocity`. -/
def nudge (p : Predator) (velocity : Vector3D) : Vector3D :=
  let margin := WORLD_HALF * (9 / 10)
  let velocity : Vector3D :=
    if p.position.x > margin then { velocity with x := velocity.x - 1 / 10 } else velocity
  let velocity : Vector3D :=
    if p.position.x < -margin then { velocity with x := velocity.x + 1 / 10 } else velocity
  let velocity : Vector3D :=
    if p.position.y > margin then { velocity with y := velocity.y - 1 / 10 } else velocity
  let velocity : Vector3D :=
    if p.position.y < -margin then { velocity with y := velocity.y + 1 / 10 } else velocity
  let velocity : Vector3D :=
    if p.position.z > margin then { velocity with z := velocity.z - 1 / 10 } else velocity
  let velocity : Vector3D :=
    if p.position.z < -margin then { velocity with z := velocity.z + 1 / 10 } else velocity
  velocity

end Predator

/-- A predator at the origin moving at speed `1` along `+x`. -/
def originPredator : Predator :=
  { position := ⟨0, 0, 0⟩, velocity := ⟨1, 0, 0⟩, size := 9 / 2, trail := [] }

/-- A predator at `(46, 0, 0)`, beyond the boundary margin `0.9 * WORLD_HALF = 45`
on the x axis, moving at speed `1.6 = 0.8 * MAX_SPEED` along `-x`. -/
def edgePredator : Predator :=
  { position := ⟨46, 0, 0⟩, velocity := ⟨-(8 / 5), 0, 0⟩, size := 9 / 2, trail := [] }

/-- An agent at rest at `(1, 0, 0)`. -/
def unitBoid : Boid :=
  { position := ⟨1, 0, 0⟩, velocity := ⟨0, 0, 0⟩, acceleration := Vector3D.zero,
    color := ⟨1, 1, 1⟩, bankAngle := 0, trail := [] }

/-- An agent at `(45, 0, 0)`, five units outside the containment margin on the x
axis, moving outward along `+x` at `MIN_SPEED`. -/
def driftBoid : Boid :=
  { position := ⟨45, 0, 0⟩, velocity := ⟨1 / 2, 0, 0⟩, acceleration := Vector3D.zero,
    color := ⟨1, 1, 1⟩, bankAngle := 0, trail := [] }

/-- The first obstacle of `initObstacles`: centre `(20, 0, 0)`, radius `8`. -/
def firstObstacle : Obstacle :=
  { position := ⟨20, 0, 0⟩, radius := 8, color := ⟨3 / 10, 3 / 10, 3 / 10⟩ }

/-- The second obstacle of `initObstacles`: centre `(-20, 10, 15)`, radius `6`. -/
def secondObstacle : Obstacle :=
  { position := ⟨-20, 10, 15⟩, radius := 6, color := ⟨3 / 10, 3 / 10, 3 / 10⟩ }

namespace Boid

/-- Spec-side test of obstacle avoidance: the distance from the agent to the
obstacle centre is below `avoidDist = obstacle.radius + OBSTACLE_RADIUS`. -/
def nearObstacle (b : Boid) (obs : Obstacle) : Prop :=
  b.position.distanceTo obs.position < obs.radius + OBSTACLE_RADIUS

instance (b : Boid) (obs : Obstacle) : Decidable (b.nearObstacle obs) :=
  inferInstanceAs (Decidable (_ < _))

/-- Spec-side contribution of one obstacle: the unit vector away from its centre
times the linear falloff `(avoidDist - d) / avoidDist`. -/
def awayTerm (b : Boid) (obs : Obstacle) : Vector3D :=
  (b.position - obs.position).normalize
    * ((obs.radius + OBSTACLE_RADIUS - b.position.distanceTo obs.position)
        / (obs.radius + OBSTACLE_RADIUS))

end Boid

/-! ### Divisors of the divisions executed by the steering behaviours

Each function below follows the control flow of the function it is named after
and lists, in execution order, the divisor of every floating-point division that
runs: the three component divisions of `operator/` (which run only when
`s != 0`), and the scalar divisions of `flee` and `avoidObstacles`. -/

namespace Vector3D

/-- Divisors of `operator/(s)`: `x / s, y / s, z / s` run only when `s != 0`. -/
def divDivisors (s : ℝ) : List ℝ := if s ≠ 0 then [s, s, s] else []

/-- Divisors of `normalize()`: `*this / mag` runs only when `mag > 0`. -/
def normalizeDivisors (a : Vector3D) : List ℝ :=
  if a.magnitude > 0 then divDivisors a.magnitude else []

/-- Divisors of `limit(maxMag)`: `normalize()` runs only when `mag > maxMag`. -/
def limitDivisors (a : Vector3D) (maxMag : ℝ) : List ℝ :=
  if a.magnitude > maxMag then a.normalizeDivisors else []

end Vector3D

namespace Boid

/-- Divisors of one iteration of the loop of `separate`:
`(position - other.position).normalize() / d` inside the radius test. -/
def separateStepDivisors (b : Boid) (other : Boid) : List ℝ :=
  let d := b.position.distanceTo other.position
  if d > 0 ∧ d < SEPARATION_RADIUS then
    (b.position - other.position).normalizeDivisors ++ Vector3D.divDivisors d
  else []

/-- Divisors of `Boid::separate`. -/
def separateDivisors (b : Boid) (boids : List Boid) : List ℝ :=
  let r := boids.foldl (separateStep b) (Vector3D.zero, 0)
  let steer := r.1
  let count := r.2
  boids.foldl (fun tr other => tr ++ b.separateStepDivisors other) []
    ++ (if count > 0 then
          Vector3D.divDivisors (count : ℝ) ++ (steer / (count : ℝ)).normalizeDivisors
            ++ ((steer / (count : ℝ)).normalize * MAX_SPEED - b.velocity).limitDivisors MAX_FORCE
        else [])

/-- Divisors of `Boid::align` (its loop divides nothing). -/
def alignDivisors (b : Boid) (boids : List Boid) : List ℝ :=
  let r := boids.foldl (alignStep b) (Vector3D.zero, 0)
  let avgVelocity := r.1
  let count := r.2
  if count > 0 then
    Vector3D.divDivisors (count : ℝ) ++ (avgVelocity / (count : ℝ)).normalizeDivisors
      ++ ((avgVelocity / (count : ℝ)).normalize * MAX_SPEED - b.velocity).limitDivisors MAX_FORCE
  else []

/-- Divisors of `Boid::seek`. -/
def seekDivisors (b : Boid) (target : Vector3D) : List ℝ :=
  (target - b.position).normalizeDivisors
    ++ ((target - b.position).normalize * MAX_SPEED - b.velocity).limitDivisors MAX_FORCE

/-- Divisors of `Boid::cohere` (its loop divides nothing). -/
def cohereDivisors (b : Boid) (boids : List Boid) : List ℝ :=
  let r := boids.foldl (cohereStep b) (Vector3D.zero, 0)
  let avgPosition := r.1
  let count := r.2
  if count > 0 then
    Vector3D.divDivisors (count : ℝ) ++ b.seekDivisors (avgPosition / (count : ℝ))
  else []

/-- Divisors of `Boid::flee`: `normalize()`, the scalar division
`(radius - d) / radius`, and `limit`. -/
def fleeDivisors (b : Boid) (target : Vector3D) (radius : ℝ) : List ℝ :=
  let d := b.position.distanceTo target
  if d < radius then
    (b.position - target).normalizeDivisors ++ [radius]
      ++ ((b.position - target).normalize * MAX_SPEED - b.velocity).limitDivisors (MAX_FORCE * 2)
  else []

/-- Divisors of one iteration of the loop of `avoidObstacles`: `normalize()` and
the scalar division `(avoidDist - d) / avoidDist`. -/
def avoidStepDivisors (b : Boid) (obs : Obstacle) : List ℝ :=
  let d := b.position.distanceTo obs.position
  let avoidDist := obs.radius + OBSTACLE_RADIUS
  if d < avoidDist then (b.position - obs.position).normalizeDivisors ++ [avoidDist] else []

/-- Divisors of `Boid::avoidObstacles`. -/
def avoidDivisors (b : Boid) (obstacles : List Obstacle) : List ℝ :=
  let steer := obstacles.foldl (avoidStep b) Vector3D.zero
  obstacles.foldl (fun tr obs => tr ++ b.avoidStepDivisors obs) []
    ++ (if ¬ steer.isZero then
          steer.normalizeDivisors
            ++ (steer.normalize * MAX_SPEED - b.velocity).limitDivisors (MAX_FORCE * 2)
        else [])

end Boid

/-! ## A binary32 reading of `Vector3D.h` and `Boid::update`

The definitions above read `float` as a real number. The definitions below read
the same source lines in IEEE 754 binary32 arithmetic, to evaluate the code at
inputs where the two readings part: the squares in `magnitude()` underflow to `0`
below about `2.6e-23` and overflow to infinity above about `1.8e19`.

A binary32 value is a finite real, an infinity or NaN. Each arithmetic operation
returns the exact result rounded to nearest, ties to even. The two zeros are
identified: the functions read here test `s != 0` before dividing and never
observe the sign of a zero. -/

/-- A binary32 value: a finite number, `±∞`, or NaN. -/
inductive F32 where
  | fin (x : ℝ)
  | inf (negative : Bool)
  | nan

namespace F32

/-- The integer nearest to `x`, the even one of the two when `x` is halfway. -/
def nearestEven (x : ℝ) : ℤ :=
  if x - ⌊x⌋ < 1 / 2 then ⌊x⌋
  else if 1 / 2 < x - ⌊x⌋ then ⌊x⌋ + 1
  else if ⌊x⌋ % 2 = 0 then ⌊x⌋
  else ⌊x⌋ + 1

/-- The spacing of the binary32 numbers around `x`: `2 ^ (e - 23)` for
`2 ^ e ≤ |x| < 2 ^ (e + 1)`, with `e` not below `-126` (subnormal range). -/
def quantum (x : ℝ) : ℝ := (2 : ℝ) ^ (max (Int.log 2 |x|) (-126) - 23)

/-- Rounding of a real to binary32: to the nearest multiple of the spacing, ties
to even, and to infinity when that multiple reaches `2 ^ 128`. -/
def round (x : ℝ) : F32 :=
  let r := (nearestEven (|x| / quantum x) : ℝ) * quantum x
  if (2 : ℝ) ^ (128 : ℤ) ≤ r then inf (decide (x < 0))
  else fin (if x < 0 then -r else r)

/-- Binary32 addition. -/
def add : F32 → F32 → F32
  | fin a, fin b => round (a + b)
  | fin _, inf s => inf s
  | inf s, fin _ => inf s
  | inf s, inf t => if s = t then inf s else nan
  | _, _ => nan

/-- Binary32 negation. -/
def neg : F32 → F32
  | fin a => fin (-a)
  | inf s => inf (!s)
  | nan => nan

/-- Binary32 subtraction. -/
def sub (a b : F32) : F32 := add a (neg b)

/-- Binary32 multiplication. -/
def mul : F32 → F32 → F32
  | fin a, fin b => round (a * b)
  | fin a, inf s => if a = 0 then nan else inf (xor (decide (a < 0)) s)
  | inf s, fin b => if b = 0 then nan else inf (xor s (decide (b < 0)))
  | inf s, inf t => inf (xor s t)
  | _, _ => nan

/-- Binary32 division. A non-zero number divided by zero is taken with the sign of
the numerator (the zero as `+0`); no function read here reaches that case. -/
def div : F32 → F32 → F32
  | fin a, fin b =>
    if b = 0 then (if a = 0 then nan else inf (decide (a < 0))) else round (a / b)
  | fin _, inf _ => fin 0
  | inf s, fin b => inf (xor s (decide (b < 0)))
  | _, _ => nan

/-- Binary32 square root, correctly rounded. -/
def sqrt : F32 → F32
  | fin a => if a < 0 then nan else round (Real.sqrt a)
  | inf s => if s then nan else inf false
  | nan => nan

/-- Comparison `a < b`; false when either side is NaN. -/
def lt : F32 → F32 → Bool
  | fin a, fin b => decide (a < b)
  | fin _, inf s => !s
  | inf s, fin _ => s
  | inf s, inf t => s && !t
  | _, _ => false

/-- Comparison `a != b`; true when either side is NaN. -/
def ne : F32 → F32 → Bool
  | fin a, fin b => decide (a ≠ b)
  | inf s, inf t => s != t
  | _, _ => true

/-- Function `std::max(a, b)`: `(a < b) ? b : a`. -/
def stdMax (a b : F32) : F32 := if lt a b then b else a

/-- Function `std::min(a, b)`: `(b < a) ? b : a`. -/
def stdMin (a b : F32) : F32 := if lt b a then b else a

/-- The binary32 value of the literal `0.1f`: `13421773 * 2 ^ (-27)`. -/
def tenth : F32 := fin (13421773 / 134217728)

end F32

/-- Class `Vector3D` with binary32 components. -/
structure Vector3D32 where
  x : F32
  y : F32
  z : F32

namespace Vector3D32

/-- Default constructor `Vector3D()`. -/
def zero : Vector3D32 := ⟨F32.fin 0, F32.fin 0, F32.fin 0⟩

/-- Member `operator+` (and `operator+=`). -/
def add (a v : Vector3D32) : Vector3D32 := ⟨a.x.add v.x, a.y.add v.y, a.z.add v.z⟩

/-- Member `operator-`. -/
def sub (a v : Vector3D32) : Vector3D32 := ⟨a.x.sub v.x, a.y.sub v.y, a.z.sub v.z⟩

/-- Member `operator*(float s)`. -/
def mul (a : Vector3D32) (s : F32) : Vector3D32 := ⟨a.x.mul s, a.y.mul s, a.z.mul s⟩

/-- Member `operator/(float s)`: `s != 0 ? Vector3D(x / s, y / s, z / s) : Vector3D()`. -/
def div (a : Vector3D32) (s : F32) : Vector3D32 :=
  if F32.ne s (F32.fin 0) then ⟨a.x.div s, a.y.div s, a.z.div s⟩ else zero

/-- Member `magnitude`: `sqrt(x * x + y * y + z * z)`, each operation rounded. -/
def magnitude (a : Vector3D32) : F32 :=
  F32.sqrt (((a.x.mul a.x).add (a.y.mul a.y)).add (a.z.mul a.z))

/-- Member `normalize`: `mag > 0 ? *this / mag : Vector3D()`. -/
def normalize (a : Vector3D32) : Vector3D32 :=
  let mag := a.magnitude
  if F32.lt (F32.fin 0) mag then a.div mag else zero

/-- Member `limit`: `mag > maxMag ? normalize() * maxMag : *this`. -/
def limit (a : Vector3D32) (maxMag : F32) : Vector3D32 :=
  let mag := a.magnitude
  if F32.lt maxMag mag then a.normalize.mul maxMag else a

/-- Member `cross`. -/
def cross (a v : Vector3D32) : Vector3D32 :=
  ⟨(a.y.mul v.z).sub (a.z.mul v.y), (a.z.mul v.x).sub (a.x.mul v.z),
    (a.x.mul v.y).sub (a.y.mul v.x)⟩

/-- Member `distanceTo`: `(*this - v).magnitude()`. -/
def distanceTo (a v : Vector3D32) : F32 := (a.sub v).magnitude

end Vector3D32

/-- Class `Boid` with binary32 fields. -/
structure Boid32 where
  position : Vector3D32
  velocity : Vector3D32
  acceleration : Vector3D32
  color : Vector3D32
  bankAngle : F32
  trail : List Vector3D32

namespace Boid32

/-- Member `Boid::update` in binary32; `MAX_SPEED = 2.0f`, `MIN_SPEED = 0.5f`,
`50.0f` and `45.0f` are exact, `0.1f` is `F32.tenth`. -/
def update (b : Boid32) : Boid32 :=
  let turnAxis := b.velocity.cross b.acceleration
  let turnRate := b.acceleration.magnitude
  let targetBank := (turnAxis.y.mul turnRate).mul (F32.fin 50)
  let targetBank := F32.stdMax (F32.fin (-45)) (F32.stdMin (F32.fin 45) targetBank)
  let bankAngle := b.bankAngle.add ((targetBank.sub b.bankAngle).mul F32.tenth)
  let velocity := b.velocity.add b.acceleration
  let speed := velocity.magnitude
  let velocity :=
    if F32.lt (F32.fin 2) speed then velocity.normalize.mul (F32.fin 2)
    else if F32.lt speed (F32.fin (1 / 2)) && F32.lt (F32.fin 0) speed then
      velocity.normalize.mul (F32.fin (1 / 2))
    else velocity
  let position := b.position.add velocity
  let trail := position :: b.trail
  let trail := if trail.length > MAX_TRAIL_LENGTH then trail.dropLast else trail
  { position := position, velocity := velocity, acceleration := Vector3D32.zero,
    color := b.color, bankAngle := bankAngle, trail := trail }

end Boid32

/-- The value `2 ^ (-100)`, about `7.9e-31`: a binary32 number whose square
underflows. -/
def tiny : ℝ := (2 : ℝ) ^ (-100 : ℤ)

/-- The value `2 ^ 64`, about `1.8e19`: a binary32 number whose square overflows. -/
def huge : ℝ := (2 : ℝ) ^ (64 : ℤ)

/-- A binary32 agent at rest at the origin with the accumulated acceleration
`(a, 0, 0)`. -/
def restingBoid32 (a : ℝ) : Boid32 :=
  { position := Vector3D32.zero, velocity := Vector3D32.zero,
    acceleration := ⟨F32.fin a, F32.fin 0, F32.fin 0⟩, color := Vector3D32.zero,
    bankAngle := F32.fin 0, trail := [] }

end

/-! ## Vector arithmetic lemmas -/

namespace Vector3D

theorem add_def (a v : Vector3D) : a + v = ⟨a.x + v.x, a.y + v.y, a.z + v.z⟩ := rfl

theorem sub_def (a v : Vector3D) : a - v = ⟨a.x - v.x, a.y - v.y, a.z - v.z⟩ := rfl

theorem mul_def (a : Vector3D) (s : ℝ) : a * s = ⟨a.x * s, a.y * s, a.z * s⟩ := rfl

theorem div_def (a : Vector3D) (s : ℝ) :
    a / s = if s ≠ 0 then (⟨a.x / s, a.y / s, a.z / s⟩ : Vector3D) else zero := rfl

theorem div_of_ne (a : Vector3D) {s : ℝ} (hs : s ≠ 0) : a / s = a * s⁻¹ := by
  rw [div_def, if_pos hs, mul_def]
  simp only [div_eq_mul_inv]

theorem zero_vadd (a : Vector3D) : zero + a = a := by
  delta zero
  simp [add_def]

theorem vadd_zero (a : Vector3D) : a + zero = a := by
  delta zero
  simp [add_def]

theorem magnitude_nonneg (a : Vector3D) : 0 ≤ a.magnitude := Real.sqrt_nonneg _

theorem sumsq_nonneg (a : Vector3D) : 0 ≤ a.x * a.x + a.y * a.y + a.z * a.z := by
  nlinarith [mul_self_nonneg a.x, mul_self_nonneg a.y, mul_self_nonneg a.z]

theorem magnitude_mul_self (a : Vector3D) :
    a.magnitude * a.magnitude = a.x * a.x + a.y * a.y + a.z * a.z :=
  Real.mul_self_sqrt a.sumsq_nonneg

theorem magnitude_zero : zero.magnitude = 0 := by
  delta magnitude zero
  simp

theorem magnitude_eq_zero_iff (a : Vector3D) : a.magnitude = 0 ↔ a = zero := by
  constructor
  · intro h
    have h2 := a.magnitude_mul_self
    rw [h] at h2
    have hx : a.x = 0 := by nlinarith [mul_self_nonneg a.x, mul_self_nonneg a.y, mul_self_nonneg a.z]
    have hy : a.y = 0 := by nlinarith [mul_self_nonneg a.x, mul_self_nonneg a.y, mul_self_nonneg a.z]
    have hz : a.z = 0 := by nlinarith [mul_self_nonneg a.x, mul_self_nonneg a.y, mul_self_nonneg a.z]
    ext <;> (delta zero; simp [hx, hy, hz])
  · intro h
    rw [h, magnitude_zero]

theorem magnitude_mul (a : Vector3D) (s : ℝ) : (a * s).magnitude = a.magnitude * |s| := by
  have h : (a.x * s) * (a.x * s) + (a.y * s) * (a.y * s) + (a.z * s) * (a.z * s)
      = (a.x * a.x + a.y * a.y + a.z * a.z) * (s * s) := by ring
  delta magnitude
  simp only [mul_def]
  rw [h, Real.sqrt_mul a.sumsq_nonneg, Real.sqrt_mul_self_eq_abs]

theorem magnitude_normalize (a : Vector3D) (h : 0 < a.magnitude) :
    a.normalize.magnitude = 1 := by
  have hne : a.magnitude ≠ 0 := ne_of_gt h
  delta normalize
  dsimp only
  rw [if_pos h, div_of_ne a hne, magnitude_mul, abs_of_pos (inv_pos.mpr h)]
  exact mul_inv_cancel₀ hne

theorem magnitude_scaled_normalize (a : Vector3D) (h : 0 < a.magnitude) {m : ℝ} (hm : 0 ≤ m) :
    (a.normalize * m).magnitude = m := by
  rw [magnitude_mul, magnitude_normalize a h, abs_of_nonneg hm, one_mul]

theorem magnitude_limit_le (a : Vector3D) {m : ℝ} (hm : 0 ≤ m) : (a.limit m).magnitude ≤ m := by
  delta limit
  dsimp only
  by_cases h : a.magnitude > m
  · rw [if_pos h]
    exact le_of_eq (magnitude_scaled_normalize a (lt_of_le_of_lt hm h) hm)
  · rw [if_neg h]
    exact not_lt.mp h

end Vector3D

theorem MAX_FORCE_nonneg : 0 ≤ MAX_FORCE := by
  unfold MAX_FORCE; norm_num

theorem MAX_SPEED_nonneg : 0 ≤ MAX_SPEED := by
  unfold MAX_SPEED; norm_num

theorem MIN_SPEED_nonneg : 0 ≤ MIN_SPEED := by
  unfold MIN_SPEED; norm_num

/-! ## Speed bound after `update` -/

/-- C1 (amended): in exact arithmetic, for every agent state, after
`Boid::update` the velocity is exactly the zero vector or its magnitude lies
between `MIN_SPEED` and `MAX_SPEED`. -/
theorem update_speed_bound (b : Boid) :
    b.update.velocity = Vector3D.zero ∨
      (MIN_SPEED ≤ b.update.velocity.magnitude ∧ b.update.velocity.magnitude ≤ MAX_SPEED) := by
  delta Boid.update
  dsimp only
  by_cases h1 : (b.velocity + b.acceleration).magnitude > MAX_SPEED
  · right
    rw [if_pos h1]
    have hpos : 0 < (b.velocity + b.acceleration).magnitude :=
      lt_of_le_of_lt MAX_SPEED_nonneg h1
    rw [Vector3D.magnitude_scaled_normalize _ hpos MAX_SPEED_nonneg]
    exact ⟨by unfold MIN_SPEED MAX_SPEED; norm_num, le_refl _⟩
  · rw [if_neg h1]
    by_cases h2 : (b.velocity + b.acceleration).magnitude < MIN_SPEED ∧
        (b.velocity + b.acceleration).magnitude > 0
    · right
      rw [if_pos h2]
      rw [Vector3D.magnitude_scaled_normalize _ h2.2 MIN_SPEED_nonneg]
      exact ⟨le_refl _, by unfold MIN_SPEED MAX_SPEED; norm_num⟩
    · rw [if_neg h2]
      by_cases h3 : (b.velocity + b.acceleration).magnitude = 0
      · left
        exact (Vector3D.magnitude_eq_zero_iff _).mp h3
      · right
        have hpos : 0 < (b.velocity + b.acceleration).magnitude :=
          lt_of_le_of_ne (Vector3D.magnitude_nonneg _) (Ne.symm h3)
        refine ⟨?_, not_lt.mp h1⟩
        by_contra hlt
        exact h2 ⟨not_le.mp hlt, hpos⟩

/-! ## Neighbour scans -/

theorem foldl_invariant {α β : Type} (P : α → Prop) (f : α → β → α)
    (hf : ∀ a x, P a → P (f a x)) (l : List β) (a : α) (ha : P a) : P (l.foldl f a) := by
  induction l generalizing a with
  | nil => exact ha
  | cons x xs ih => exact ih (f a x) (hf a x ha)

theorem foldl_filter_skip {α β : Type} (p : β → Prop) [DecidablePred p] (f : α → β → α)
    (hf : ∀ a x, ¬ p x → f a x = a) (l : List β) (a : α) :
    l.foldl f a = (l.filter (fun x => decide (p x))).foldl f a := by
  induction l generalizing a with
  | nil => rfl
  | cons x xs ih =>
    by_cases hx : p x
    · rw [List.filter_cons_of_pos (by simpa using hx), List.foldl_cons, List.foldl_cons]
      exact ih (f a x)
    · rw [List.filter_cons_of_neg (by simpa using hx), List.foldl_cons, hf a x hx]
      exact ih a

namespace Boid

theorem separateStep_skip (b : Boid) (acc : Vector3D × ℕ) (other : Boid)
    (h : ¬ b.inRange SEPARATION_RADIUS other) : b.separateStep acc other = acc := by
  delta separateStep
  dsimp only
  exact if_neg h

theorem alignStep_skip (b : Boid) (acc : Vector3D × ℕ) (other : Boid)
    (h : ¬ b.inRange ALIGNMENT_RADIUS other) : b.alignStep acc other = acc := by
  delta alignStep
  dsimp only
  exact if_neg h

theorem cohereStep_skip (b : Boid) (acc : Vector3D × ℕ) (other : Boid)
    (h : ¬ b.inRange COHESION_RADIUS other) : b.cohereStep acc other = acc := by
  delta cohereStep
  dsimp only
  exact if_neg h

theorem separate_filter (b : Boid) (boids : List Boid) :
    b.separate boids
      = b.separate (boids.filter (fun o => decide (b.inRange SEPARATION_RADIUS o))) := by
  delta separate
  dsimp only
  rw [← foldl_filter_skip (b.inRange SEPARATION_RADIUS) (b.separateStep) (b.separateStep_skip)]

theorem align_filter (b : Boid) (boids : List Boid) :
    b.align boids = b.align (boids.filter (fun o => decide (b.inRange ALIGNMENT_RADIUS o))) := by
  delta align
  dsimp only
  rw [← foldl_filter_skip (b.inRange ALIGNMENT_RADIUS) (b.alignStep) (b.alignStep_skip)]

theorem cohere_filter (b : Boid) (boids : List Boid) :
    b.cohere boids = b.cohere (boids.filter (fun o => decide (b.inRange COHESION_RADIUS o))) := by
  delta cohere
  dsimp only
  rw [← foldl_filter_skip (b.inRange COHESION_RADIUS) (b.cohereStep) (b.cohereStep_skip)]

theorem not_inRange_self (a : Boid) (R : ℝ) : ¬ a.inRange R a := by
  have distanceTo_self (a : Vector3D) : a.distanceTo a = 0 := by
    delta Vector3D.distanceTo Vector3D.magnitude
    simp [Vector3D.sub_def]
  delta inRange
  simp only [distanceTo_self]
  exact fun h => lt_irrefl 0 h.1

theorem magnitude_separate_le (b : Boid) (boids : List Boid) :
    (b.separate boids).magnitude ≤ MAX_FORCE := by
  -- While `count` is zero the accumulated `steer` of `separate` is still zero.
  have separate_count_zero (b : Boid) (boids : List Boid) :
      (boids.foldl (b.separateStep) (Vector3D.zero, 0)).2 = 0 →
        (boids.foldl (b.separateStep) (Vector3D.zero, 0)).1 = Vector3D.zero := by
    apply foldl_invariant (fun acc : Vector3D × ℕ => acc.2 = 0 → acc.1 = Vector3D.zero)
    · intro acc other hacc
      delta separateStep
      dsimp only
      split_ifs
      · intro h
        exact absurd h (Nat.succ_ne_zero _)
      · exact hacc
    · intro _
      rfl
  have hz := separate_count_zero b boids
  delta separate
  dsimp only
  split_ifs with h
  · exact Vector3D.magnitude_limit_le _ MAX_FORCE_nonneg
  · rw [hz (by omega), Vector3D.magnitude_zero]
    exact MAX_FORCE_nonneg

theorem magnitude_align_le (b : Boid) (boids : List Boid) :
    (b.align boids).magnitude ≤ MAX_FORCE := by
  delta align
  dsimp only
  split_ifs with h
  · exact Vector3D.magnitude_limit_le _ MAX_FORCE_nonneg
  · rw [Vector3D.magnitude_zero]
    exact MAX_FORCE_nonneg

theorem magnitude_seek_le (b : Boid) (target : Vector3D) :
    (b.seek target).magnitude ≤ MAX_FORCE := by
  delta seek
  dsimp only
  exact Vector3D.magnitude_limit_le _ MAX_FORCE_nonneg

theorem magnitude_cohere_le (b : Boid) (boids : List Boid) :
    (b.cohere boids).magnitude ≤ MAX_FORCE := by
  delta cohere
  dsimp only
  split_ifs with h
  · exact magnitude_seek_le b _
  · rw [Vector3D.magnitude_zero]
    exact MAX_FORCE_nonneg

theorem magnitude_contain_le (b : Boid) : b.containWithinBounds.magnitude ≤ MAX_FORCE := by
  delta containWithinBounds
  dsimp only
  exact Vector3D.magnitude_limit_le _ MAX_FORCE_nonneg

theorem magnitude_flee_le (b : Boid) (target : Vector3D) (radius : ℝ) :
    (b.flee target radius).magnitude ≤ 2 * MAX_FORCE := by
  have h2 : 0 ≤ MAX_FORCE * 2 := by unfold MAX_FORCE; norm_num
  delta flee
  dsimp only
  split_ifs with h
  · have hd : 0 ≤ b.position.distanceTo target := Vector3D.magnitude_nonneg _
    have hr : 0 < radius := lt_of_le_of_lt hd h
    have hs0 : 0 ≤ (radius - b.position.distanceTo target) / radius :=
      div_nonneg (by linarith) (le_of_lt hr)
    have hs1 : (radius - b.position.distanceTo target) / radius ≤ 1 := by
      rw [div_le_one hr]
      linarith
    rw [Vector3D.magnitude_mul, abs_of_nonneg hs0]
    have hl := Vector3D.magnitude_limit_le
      ((b.position - target).normalize * MAX_SPEED - b.velocity) h2
    have hn := Vector3D.magnitude_nonneg
      (((b.position - target).normalize * MAX_SPEED - b.velocity).limit (MAX_FORCE * 2))
    nlinarith
  · rw [Vector3D.magnitude_zero]
    linarith

theorem magnitude_avoid_le (b : Boid) (obstacles : List Obstacle) :
    (b.avoidObstacles obstacles).magnitude ≤ 2 * MAX_FORCE := by
  have h2 : 0 ≤ MAX_FORCE * 2 := by unfold MAX_FORCE; norm_num
  delta avoidObstacles
  dsimp only
  split_ifs with h
  · have hz : obstacles.foldl (b.avoidStep) Vector3D.zero = Vector3D.zero :=
      Vector3D.ext h.1 h.2.1 h.2.2
    rw [hz, Vector3D.magnitude_zero]
    linarith
  · have hl := Vector3D.magnitude_limit_le
      ((obstacles.foldl (b.avoidStep) Vector3D.zero).normalize * MAX_SPEED - b.velocity) h2
    linarith

end Boid

/-! ## Force bounds and neighbour policy -/

/-- C2: for every agent, population and target, each of `separate`, `align`,
`cohere`, `seek` and `containWithinBounds` returns a vector of magnitude at most
`MAX_FORCE`. -/
theorem steering_force_bound (b : Boid) (boids : List Boid) (target : Vector3D) :
    (b.separate boids).magnitude ≤ MAX_FORCE ∧ (b.align boids).magnitude ≤ MAX_FORCE ∧
      (b.cohere boids).magnitude ≤ MAX_FORCE ∧ (b.seek target).magnitude ≤ MAX_FORCE ∧
      b.containWithinBounds.magnitude ≤ MAX_FORCE :=
  ⟨b.magnitude_separate_le boids, b.magnitude_align_le boids, b.magnitude_cohere_le boids,
    b.magnitude_seek_le target, b.magnitude_contain_le⟩

/-- C3: for every agent, threat position, radius and obstacle list, `flee` and
`avoidObstacles` each return a vector of magnitude at most `2 * MAX_FORCE`. -/
theorem evasion_force_bound (b : Boid) (target : Vector3D) (radius : ℝ)
    (obstacles : List Obstacle) :
    (b.flee target radius).magnitude ≤ 2 * MAX_FORCE ∧
      (b.avoidObstacles obstacles).magnitude ≤ 2 * MAX_FORCE :=
  ⟨b.magnitude_flee_le target radius, b.magnitude_avoid_le obstacles⟩

/-- C4: when no member of the population lies at a distance `d` with `0 < d < R`
from the agent (`R` the radius of the behaviour), `separate`, `align` and `cohere`
each return exactly the zero vector, whatever the agent's velocity. -/
theorem no_neighbour_zero_force (b : Boid) (boids : List Boid) :
    ((∀ o ∈ boids, ¬ b.inRange SEPARATION_RADIUS o) → b.separate boids = Vector3D.zero) ∧
      ((∀ o ∈ boids, ¬ b.inRange ALIGNMENT_RADIUS o) → b.align boids = Vector3D.zero) ∧
      ((∀ o ∈ boids, ¬ b.inRange COHESION_RADIUS o) → b.cohere boids = Vector3D.zero) := by
  have filter_none {p : Boid → Prop} [DecidablePred p] (boids : List Boid)
      (h : ∀ o ∈ boids, ¬ p o) : boids.filter (fun o => decide (p o)) = [] := by
    rw [List.filter_eq_nil_iff]
    intro o ho
    simpa using h o ho
  have separate_nil (b : Boid) : b.separate [] = Vector3D.zero := by
    delta Boid.separate
    simp
  have cohere_nil (b : Boid) : b.cohere [] = Vector3D.zero := by
    delta Boid.cohere
    simp
  have align_nil (b : Boid) : b.align [] = Vector3D.zero := by
    delta Boid.align
    simp
  refine ⟨fun h => ?_, fun h => ?_, fun h => ?_⟩
  · rw [b.separate_filter, filter_none boids h, separate_nil]
  · rw [b.align_filter, filter_none boids h, align_nil]
  · rw [b.cohere_filter, filter_none boids h, cohere_nil]

/-- Witness of C4: the population consisting of the agent itself (distance `0`). -/
theorem no_neighbour_zero_force_witness :
    slowBoid.separate [slowBoid] = Vector3D.zero ∧ slowBoid.align [slowBoid] = Vector3D.zero ∧
      slowBoid.cohere [slowBoid] = Vector3D.zero :=
  ⟨(no_neighbour_zero_force slowBoid [slowBoid]).1
      (by simp [Boid.not_inRange_self]),
    (no_neighbour_zero_force slowBoid [slowBoid]).2.1
      (by simp [Boid.not_inRange_self]),
    (no_neighbour_zero_force slowBoid [slowBoid]).2.2
      (by simp [Boid.not_inRange_self])⟩

/-- C5: `separate`, `align` and `cohere` over a population equal their result
over the sub-population of members at distance `d` with `0 < d < R`; members at
distance `0` or at distance `R` or more contribute nothing. -/
theorem neighbour_filter (b : Boid) (boids : List Boid) :
    b.separate boids
        = b.separate (boids.filter (fun o => decide (b.inRange SEPARATION_RADIUS o))) ∧
      b.align boids
        = b.align (boids.filter (fun o => decide (b.inRange ALIGNMENT_RADIUS o))) ∧
      b.cohere boids
        = b.cohere (boids.filter (fun o => decide (b.inRange COHESION_RADIUS o))) :=
  ⟨b.separate_filter boids, b.align_filter boids, b.cohere_filter boids⟩

/-! ## Trail -/

/-- C6: for an agent whose trail has at most `MAX_TRAIL_LENGTH` entries, after
the `update` calls of any run (one per force of `fs`, each preceded by
`applyForce`) the trail has at most `MAX_TRAIL_LENGTH` entries, equals the first
`MAX_TRAIL_LENGTH` entries of the post-update positions (most recent first)
followed by the original trail, and, once an update has happened, its front entry
is the agent's current position. -/
theorem trail_bound_and_order (b : Boid) (fs : List Vector3D)
    (h : b.trail.length ≤ MAX_TRAIL_LENGTH) :
    (b.run fs).trail.length ≤ MAX_TRAIL_LENGTH ∧
      (b.run fs).trail = (b.history fs ++ b.trail).take MAX_TRAIL_LENGTH ∧
      (b.history fs).length = fs.length ∧
      (fs ≠ [] → (b.run fs).trail.head? = some (b.run fs).position) := by
  have trail_evict (p : Vector3D) (l : List Vector3D) (h : l.length ≤ MAX_TRAIL_LENGTH) :
      (if (p :: l).length > MAX_TRAIL_LENGTH then (p :: l).dropLast else p :: l)
        = (p :: l).take MAX_TRAIL_LENGTH := by
    split_ifs with hlen
    · rw [List.dropLast_eq_take]
      have : (p :: l).length - 1 = MAX_TRAIL_LENGTH := by
        simp only [List.length_cons] at hlen ⊢
        omega
      rw [this]
    · rw [List.take_of_length_le (by omega)]
  have take_append_take (n : ℕ) (h l : List Vector3D) :
      (h ++ l.take n).take n = (h ++ l).take n := by
    rw [List.take_append_eq_append_take, List.take_append_eq_append_take, List.take_take]
    congr 2
    omega
  have update_trail (b : Boid) (h : b.trail.length ≤ MAX_TRAIL_LENGTH) :
      b.update.trail = (b.update.position :: b.trail).take MAX_TRAIL_LENGTH := by
    delta Boid.update
    dsimp only
    exact trail_evict _ _ h
  have update_trail_length (b : Boid) (h : b.trail.length ≤ MAX_TRAIL_LENGTH) :
      b.update.trail.length ≤ MAX_TRAIL_LENGTH := by
    rw [update_trail b h, List.length_take]
    exact Nat.min_le_left _ _
  have update_trail_head (b : Boid) (h : b.trail.length ≤ MAX_TRAIL_LENGTH) :
      b.update.trail.head? = some b.update.position := by
    rw [update_trail b h]
    delta MAX_TRAIL_LENGTH
    simp
  have run_trail_head (fs : List Vector3D) (b : Boid) (h : b.trail.length ≤ MAX_TRAIL_LENGTH)
      (hne : fs ≠ []) : (b.run fs).trail.head? = some (b.run fs).position := by
    induction fs generalizing b with
    | nil => exact absurd rfl hne
    | cons f fs ih =>
      have h1 : (b.applyForce f).trail.length ≤ MAX_TRAIL_LENGTH := h
      simp only [Boid.run]
      by_cases hfs : fs = []
      · subst hfs
        simp only [Boid.run]
        exact update_trail_head (b.applyForce f) h1
      · exact ih (b.applyForce f).update (update_trail_length (b.applyForce f) h1) hfs
  have run_trail (fs : List Vector3D) (b : Boid) (h : b.trail.length ≤ MAX_TRAIL_LENGTH) :
      (b.run fs).trail.length ≤ MAX_TRAIL_LENGTH ∧
        (b.run fs).trail = (b.history fs ++ b.trail).take MAX_TRAIL_LENGTH := by
    induction fs generalizing b with
    | nil =>
      simp only [Boid.run, Boid.history, List.nil_append]
      exact ⟨h, (List.take_of_length_le h).symm⟩
    | cons f fs ih =>
      have h1 : (b.applyForce f).trail.length ≤ MAX_TRAIL_LENGTH := h
      have h2 := update_trail_length (b.applyForce f) h1
      obtain ⟨ihl, iht⟩ := ih (b.applyForce f).update h2
      simp only [Boid.run, Boid.history]
      refine ⟨ihl, ?_⟩
      rw [iht, update_trail (b.applyForce f) h1, take_append_take, List.append_assoc]
      rfl
  have history_length (fs : List Vector3D) (b : Boid) :
      (b.history fs).length = fs.length := by
    induction fs generalizing b with
    | nil => rfl
    | cons f fs ih =>
      simp only [Boid.history, List.length_append, List.length_cons, List.length_nil]
      rw [ih (b.applyForce f).update]
  exact
    ⟨(run_trail fs b h).1, (run_trail fs b h).2, history_length fs b,
      run_trail_head fs b h⟩

/-- Witness of C6: the agent `outsideBoid` (empty trail) run for two ticks. -/
theorem trail_bound_and_order_witness :
    outsideBoid.trail.length ≤ MAX_TRAIL_LENGTH ∧
      ((outsideBoid.run [Vector3D.zero, Vector3D.zero]).trail.length ≤ MAX_TRAIL_LENGTH ∧
        (outsideBoid.run [Vector3D.zero, Vector3D.zero]).trail
          = (outsideBoid.history [Vector3D.zero, Vector3D.zero]
              ++ outsideBoid.trail).take MAX_TRAIL_LENGTH ∧
        (outsideBoid.history [Vector3D.zero, Vector3D.zero]).length
          = [Vector3D.zero, Vector3D.zero].length ∧
        ([Vector3D.zero, Vector3D.zero] ≠ [] →
          (outsideBoid.run [Vector3D.zero, Vector3D.zero]).trail.head?
            = some (outsideBoid.run [Vector3D.zero, Vector3D.zero]).position)) :=
  ⟨by (delta outsideBoid MAX_TRAIL_LENGTH; simp),
    trail_bound_and_order outsideBoid [Vector3D.zero, Vector3D.zero]
      (by (delta outsideBoid MAX_TRAIL_LENGTH; simp))⟩

/-! ## The tick -/

/-- C7: when the paused flag is set, `updateSimulation` returns the simulation
state unchanged (agents, predator, goal and everything else). -/
theorem paused_tick_noop (s : Simulation) (h : s.paused = true) : s.updateSimulation = s := by
  delta Simulation.updateSimulation
  dsimp only
  rw [if_pos h]

/-- Witness of C7: the containment-only state with the pause flag set. -/
theorem paused_tick_noop_witness :
    ({ Simulation.containOnly outsideBoid with paused := true } : Simulation).paused = true ∧
      ({ Simulation.containOnly outsideBoid with paused := true } : Simulation).updateSimulation
        = { Simulation.containOnly outsideBoid with paused := true } :=
  ⟨rfl, paused_tick_noop { Simulation.containOnly outsideBoid with paused := true } rfl⟩

/-! ## Update order -/

namespace Simulation

/-- The force accumulated by the loop body is the weighted sum over the current
population. -/
theorem boidForce_eq_weightedSum (s : Simulation) (boid : Boid) :
    s.boidForce boid = s.weightedSum s.boids boid := by
  delta weightedSum boidForce
  simp only [List.foldl]
  cases s.separationEnabled <;> cases s.alignmentEnabled <;> cases s.cohesionEnabled <;>
    cases s.obstaclesEnabled <;> cases s.predatorEnabled <;> cases s.goalEnabled <;>
    simp [Vector3D.zero_vadd, Vector3D.vadd_zero]

end Simulation

/-- C8: a tick equals the sequential left-to-right fold over the population:
the predator is advanced first (when enabled), the goal is optionally relocated,
and agent `i` is updated with the weighted sum of the enabled behaviours
evaluated against a population whose earlier entries are already updated and
whose entries from `i` on still hold their previous-tick state. -/
theorem tick_is_sequential_fold (s : Simulation) : s.updateSimulation = s.specTick := by
  have set_append_length (done : List Boid) (b c : Boid) (rest : List Boid) :
      (done ++ b :: rest).set done.length c = done ++ c :: rest := by
    induction done with
    | nil => simp
    | cons d ds ih => simp [ih]
  have getElem?_append_length (done : List Boid) (b : Boid) (rest : List Boid) :
      (done ++ b :: rest)[done.length]? = some b := by
    induction done with
    | nil => simp
    | cons d ds ih => simpa using ih
  have sequentialFold_boids (s : Simulation) (bs : List Boid) (todo done : List Boid) :
      ({ s with boids := bs } : Simulation).sequentialFold done todo
        = s.sequentialFold done todo := by
    induction todo generalizing done with
    | nil => rfl
    | cons b rest ih =>
      simp only [Simulation.sequentialFold]
      exact ih _
  have foldl_updateBoid (todo : List Boid) (done : List Boid) (s : Simulation)
      (h : s.boids = done ++ todo) :
      (List.range' done.length todo.length).foldl Simulation.updateBoid s
        = { s with boids := s.sequentialFold done todo } := by
    induction todo generalizing done s with
    | nil =>
      simp only [List.length_nil, List.range'_zero, List.foldl_nil, Simulation.sequentialFold]
      rw [List.append_nil] at h
      rw [← h]
    | cons b rest ih =>
      have hstep : Simulation.updateBoid s done.length
          = { s with boids := (done ++ [(b.applyForce (s.weightedSum (done ++ b :: rest) b)).update])
                ++ rest } := by
        delta Simulation.updateBoid
        rw [h, getElem?_append_length]
        simp only []
        rw [set_append_length, Simulation.boidForce_eq_weightedSum, h, List.append_assoc]
        rfl
      rw [List.length_cons, List.range'_succ, List.foldl_cons, hstep]
      have hlen : done.length + 1
          = (done ++ [(b.applyForce (s.weightedSum (done ++ b :: rest) b)).update]).length := by
        simp
      rw [hlen, ih _ _ rfl, sequentialFold_boids]
      rfl
  delta Simulation.specTick Simulation.updateSimulation
  dsimp only
  split_ifs
  all_goals first
    | rfl
    | (rw [List.range_eq_range']
       exact foldl_updateBoid _ [] _ rfl)

/-! ## Separation between two agents -/

namespace Vector3D

theorem div_one (a : Vector3D) : a / (1 : ℝ) = a := by
  rw [div_def, if_pos one_ne_zero]
  simp

theorem magnitude_axis (c : ℝ) : (⟨c, 0, 0⟩ : Vector3D).magnitude = |c| := by
  delta magnitude
  dsimp only
  rw [mul_zero, add_zero, add_zero, Real.sqrt_mul_self_eq_abs]

theorem distanceTo_comm (a v : Vector3D) : a.distanceTo v = v.distanceTo a := by
  delta distanceTo magnitude
  simp only [sub_def]
  congr 1
  ring

theorem normalize_eq_mul (a : Vector3D) (h : 0 < a.magnitude) :
    a.normalize = a * a.magnitude⁻¹ := by
  delta normalize
  dsimp only
  rw [if_pos h, div_of_ne a (ne_of_gt h)]

theorem normalize_of_unit (a : Vector3D) (h : a.magnitude = 1) : a.normalize = a := by
  delta normalize
  dsimp only
  rw [h, if_pos one_pos, div_one]

theorem dot_le_magnitude_mul (a v : Vector3D) : a.dot v ≤ a.magnitude * v.magnitude := by
  by_contra hlt
  have hlt2 := not_le.mp hlt
  have hnn : 0 ≤ a.magnitude * v.magnitude := mul_nonneg a.magnitude_nonneg v.magnitude_nonneg
  have hsq := mul_self_lt_mul_self hnn hlt2
  have ha := a.magnitude_mul_self
  have hv := v.magnitude_mul_self
  have hprod : (a.magnitude * v.magnitude) * (a.magnitude * v.magnitude)
      = (a.x * a.x + a.y * a.y + a.z * a.z) * (v.x * v.x + v.y * v.y + v.z * v.z) := by
    rw [← ha, ← hv]
    ring
  rw [hprod] at hsq
  delta dot at hsq
  nlinarith [mul_self_nonneg (a.x * v.y - a.y * v.x), mul_self_nonneg (a.y * v.z - a.z * v.y),
    mul_self_nonneg (a.z * v.x - a.x * v.z)]

end Vector3D

namespace Boid

/-- With a single neighbour in range, `separate` steers along the unit vector
away from it at `MAX_SPEED`, relative to the own velocity, limited to `MAX_FORCE`. -/
theorem separate_single (a o : Boid) (h : a.inRange SEPARATION_RADIUS o) :
    a.separate [o]
      = ((a.position - o.position).normalize * MAX_SPEED - a.velocity).limit MAX_FORCE := by
  have normalize_mul_pos (a : Vector3D) {c : ℝ} (hc : 0 < c) :
      (a * c).normalize = a.normalize := by
    by_cases h : 0 < a.magnitude
    · have hm : (a * c).magnitude = a.magnitude * c := by
        rw [Vector3D.magnitude_mul, abs_of_pos hc]
      have hpos : 0 < (a * c).magnitude := by
        rw [hm]
        exact mul_pos h hc
      rw [Vector3D.normalize_eq_mul _ hpos, Vector3D.normalize_eq_mul _ h, hm]
      have hne : a.magnitude ≠ 0 := ne_of_gt h
      have hcne : c ≠ 0 := ne_of_gt hc
      simp only [Vector3D.mul_def]
      ext <;> simp <;> field_simp <;> ring
    · have h0 : a.magnitude = 0 := le_antisymm (not_lt.mp h) a.magnitude_nonneg
      have hm : (a * c).magnitude = 0 := by
        rw [Vector3D.magnitude_mul, h0, zero_mul]
      delta Vector3D.normalize
      simp [hm, h0]
  have hd : 0 < (a.position - o.position).magnitude := h.1
  have hstep : a.separateStep (Vector3D.zero, 0) o
      = (Vector3D.zero + (a.position - o.position).normalize
          / a.position.distanceTo o.position, 0 + 1) := by
    delta separateStep
    dsimp only
    exact if_pos h
  have hnorm : ((a.position - o.position).normalize
      / a.position.distanceTo o.position).normalize = (a.position - o.position).normalize := by
    rw [Vector3D.div_of_ne _ (ne_of_gt h.1), normalize_mul_pos _ (inv_pos.mpr h.1)]
    exact Vector3D.normalize_of_unit _ (Vector3D.magnitude_normalize _ hd)
  delta separate
  simp only [List.foldl_cons, List.foldl_nil]
  rw [hstep]
  simp only [Nat.zero_add, Nat.cast_one, Vector3D.div_one, Vector3D.zero_vadd]
  rw [if_pos Nat.one_pos, hnorm]

theorem separate_pair_first (a b : Boid) (h : a.inRange SEPARATION_RADIUS b) :
    a.separate [a, b]
      = ((a.position - b.position).normalize * MAX_SPEED - a.velocity).limit MAX_FORCE := by
  rw [separate_filter, List.filter_cons_of_neg (by simpa using a.not_inRange_self _),
    List.filter_cons_of_pos (by simpa using h), List.filter_nil]
  exact separate_single a b h

end Boid

theorem slow_near_displacement : slowBoid.position - nearBoid.position = ⟨1, 0, 0⟩ := by
  delta nearBoid slowBoid
  simp [Vector3D.sub_def]

theorem magnitude_unit_x : (⟨1, 0, 0⟩ : Vector3D).magnitude = 1 := by
  rw [Vector3D.magnitude_axis, abs_one]

theorem magnitude_neg_unit_x : (⟨-1, 0, 0⟩ : Vector3D).magnitude = 1 := by
  rw [Vector3D.magnitude_axis, abs_neg, abs_one]

theorem slow_near_inRange : slowBoid.inRange SEPARATION_RADIUS nearBoid := by
  delta Boid.inRange Vector3D.distanceTo
  rw [slow_near_displacement, magnitude_unit_x]
  exact ⟨one_pos, by unfold SEPARATION_RADIUS; norm_num⟩

/-! ## Separation direction -/

/-- The speed invariant of an agent: after `Boid::update` the speed is at most
`MAX_SPEED`. -/
theorem update_speed_le (b : Boid) : b.update.velocity.magnitude ≤ MAX_SPEED := by
  delta Boid.update
  dsimp only
  split_ifs with h1 h2
  · exact le_of_eq (Vector3D.magnitude_scaled_normalize _
      (lt_of_le_of_lt MAX_SPEED_nonneg h1) MAX_SPEED_nonneg)
  · rw [Vector3D.magnitude_scaled_normalize _ h2.2 MIN_SPEED_nonneg]
    unfold MIN_SPEED MAX_SPEED
    norm_num
  · exact not_lt.mp h1

namespace Vector3D

theorem normalize_neg_axis {w : ℝ} (hw : w < 0) :
    (⟨w, 0, 0⟩ : Vector3D).normalize = ⟨-1, 0, 0⟩ := by
  have hm : (⟨w, 0, 0⟩ : Vector3D).magnitude = -w := by
    rw [magnitude_axis, abs_of_neg hw]
  have hpos : 0 < (⟨w, 0, 0⟩ : Vector3D).magnitude := by
    rw [hm]
    linarith
  rw [normalize_eq_mul _ hpos, hm]
  have hne : -w ≠ 0 := by linarith
  simp only [mul_def]
  ext
  · simp only []
    field_simp
  · simp
  · simp

end Vector3D

namespace Boid

theorem contain_axis (b : Boid) (x : ℝ) (hp : b.position = ⟨x, 0, 0⟩) :
    ∃ c : ℝ, b.containWithinBounds = ⟨c, 0, 0⟩ ∧ |c| ≤ 1 / 10 ∧ (40 < x → c < 0) := by
  have limit_axis (a : ℝ) {m : ℝ} (hm : 0 < m) :
      ∃ c : ℝ, (⟨a, 0, 0⟩ : Vector3D).limit m = ⟨c, 0, 0⟩ ∧ |c| ≤ m ∧ (a < 0 → c < 0) := by
    delta Vector3D.limit
    dsimp only
    rw [Vector3D.magnitude_axis]
    by_cases h : |a| > m
    · have hpos : 0 < |a| := lt_trans hm h
      have hmag : 0 < (⟨a, 0, 0⟩ : Vector3D).magnitude := by
        rw [Vector3D.magnitude_axis]
        exact hpos
      refine ⟨a * |a|⁻¹ * m, ?_, ?_, ?_⟩
      · rw [if_pos h, Vector3D.normalize_eq_mul _ hmag, Vector3D.magnitude_axis]
        simp [Vector3D.mul_def]
      · rw [abs_mul, abs_mul, abs_inv, abs_abs, mul_inv_cancel₀ (ne_of_gt hpos), one_mul,
          abs_of_pos hm]
      · intro ha
        have h1 : a * |a|⁻¹ < 0 := mul_neg_of_neg_of_pos ha (inv_pos.mpr hpos)
        exact mul_neg_of_neg_of_pos h1 hm
    · refine ⟨a, ?_, not_lt.mp h, fun ha => ha⟩
      rw [if_neg h]
  have h0 : containAxis 0 (WORLD_HALF * (8 / 10)) (1 / 2) = 0 := by
    delta containAxis WORLD_HALF WORLD_SIZE
    norm_num
  obtain ⟨c, hc, habs, hneg⟩ :=
    limit_axis (containAxis x (WORLD_HALF * (8 / 10)) (1 / 2))
      (show (0 : ℝ) < MAX_FORCE by unfold MAX_FORCE; norm_num)
  refine ⟨c, ?_, ?_, ?_⟩
  · delta containWithinBounds
    simp only [hp, h0]
    exact hc
  · exact habs
  · intro hx
    apply hneg
    have hm : x > WORLD_HALF * (8 / 10) := by
      delta WORLD_HALF WORLD_SIZE
      norm_num
      exact hx
    delta containAxis
    rw [if_pos hm]
    delta WORLD_HALF WORLD_SIZE
    linarith

theorem update_acceleration (b : Boid) : b.update.acceleration = Vector3D.zero := rfl

theorem update_position (b : Boid) : b.update.position = b.position + b.update.velocity := rfl

theorem update_velocity (b : Boid) :
    b.update.velocity =
      if (b.velocity + b.acceleration).magnitude > MAX_SPEED then
        (b.velocity + b.acceleration).normalize * MAX_SPEED
      else if (b.velocity + b.acceleration).magnitude < MIN_SPEED ∧
          (b.velocity + b.acceleration).magnitude > 0 then
        (b.velocity + b.acceleration).normalize * MIN_SPEED
      else b.velocity + b.acceleration := rfl

end Boid

namespace Simulation

theorem updateSimulation_containOnly (b : Boid) :
    (containOnly b).updateSimulation
      = containOnly ((b.applyForce (Vector3D.zero + b.containWithinBounds * (3 / 2 : ℝ))).update) := by
  delta containOnly updateSimulation updateBoid boidForce
  simp [List.range_succ]

end Simulation

/-! ## Containment convergence -/

/-- C9 fails on the code: the agent `outsideBoid`, at rest at `(41, 0, 0)` (one
unit outside the margin on the x axis only), ticked with containment alone and the
default `boundaryWeight`, is after 166 ticks at `x ≤ -42` on the x axis: at least
two units outside the margin, on the opposite side. -/
theorem containment_overshoot :
    ∃ b : Boid, ∃ x : ℝ,
      (Simulation.updateSimulation^[166] (Simulation.containOnly outsideBoid)).boids = [b] ∧
        b.position = ⟨x, 0, 0⟩ ∧ x ≤ -42 := by
  have update_axis (b : Boid) (w : ℝ) (hw : w < 0)
      (hv : b.velocity + b.acceleration = ⟨w, 0, 0⟩) :
      ∃ v : ℝ, b.update.velocity = ⟨v, 0, 0⟩ ∧ b.update.position = b.position + ⟨v, 0, 0⟩ ∧
        b.update.acceleration = Vector3D.zero ∧ -2 ≤ v ∧ v ≤ -(1 / 2) := by
    have hmag : (⟨w, 0, 0⟩ : Vector3D).magnitude = -w := by
      rw [Vector3D.magnitude_axis, abs_of_neg hw]
    have hvel := b.update_velocity
    rw [hv, hmag, Vector3D.normalize_neg_axis hw] at hvel
    delta MIN_SPEED MAX_SPEED at hvel
    by_cases h1 : -w > 2
    · rw [if_pos h1] at hvel
      have hvel2 : b.update.velocity = ⟨-2, 0, 0⟩ := by
        rw [hvel]
        simp [Vector3D.mul_def]
      exact ⟨-2, hvel2, by rw [Boid.update_position, hvel2], b.update_acceleration, le_refl _,
        by norm_num⟩
    · rw [if_neg h1] at hvel
      by_cases h2 : -w < 1 / 2 ∧ -w > 0
      · rw [if_pos h2] at hvel
        have hvel2 : b.update.velocity = ⟨-(1 / 2), 0, 0⟩ := by
          rw [hvel]
          simp [Vector3D.mul_def]
        exact ⟨-(1 / 2), hvel2, by rw [Boid.update_position, hvel2], b.update_acceleration,
          by norm_num, le_refl _⟩
      · rw [if_neg h2] at hvel
        refine ⟨w, hvel, by rw [Boid.update_position, hvel], b.update_acceleration, by linarith, ?_⟩
        by_contra hlt
        exact h2 ⟨by linarith, by linarith⟩
  -- One containment-only tick of an agent on the x axis that is either moving
  -- towards `-x` at `MIN_SPEED` or more, or at rest outside the margin on the `+x`
  -- side: it moves towards `-x` by at least `MIN_SPEED`.
  have contain_tick_axis (b : Boid) (x v : ℝ) (hp : b.position = ⟨x, 0, 0⟩)
      (hvel : b.velocity = ⟨v, 0, 0⟩) (hacc : b.acceleration = Vector3D.zero)
      (hcase : v ≤ -(1 / 2) ∨ (v = 0 ∧ 40 < x)) :
      ∃ u : ℝ,
        ((b.applyForce (Vector3D.zero + b.containWithinBounds * (3 / 2 : ℝ))).update).velocity
            = ⟨u, 0, 0⟩ ∧
          ((b.applyForce (Vector3D.zero + b.containWithinBounds * (3 / 2 : ℝ))).update).position
            = ⟨x + u, 0, 0⟩ ∧
          ((b.applyForce (Vector3D.zero + b.containWithinBounds * (3 / 2 : ℝ))).update).acceleration
            = Vector3D.zero ∧ -2 ≤ u ∧ u ≤ -(1 / 2) := by
    obtain ⟨c, hc, habs, hneg⟩ := b.contain_axis x hp
    have hcb := abs_le.mp habs
    have hw : v + c * (3 / 2) < 0 := by
      rcases hcase with h | ⟨h0, hx⟩
      · linarith [hcb.2]
      · have := hneg hx
        linarith
    have hsum : (b.applyForce (Vector3D.zero + b.containWithinBounds * (3 / 2 : ℝ))).velocity
        + (b.applyForce (Vector3D.zero + b.containWithinBounds * (3 / 2 : ℝ))).acceleration
        = ⟨v + c * (3 / 2), 0, 0⟩ := by
      delta Boid.applyForce
      simp only [hvel, hacc, hc, Vector3D.zero_vadd]
      simp [Vector3D.add_def, Vector3D.mul_def]
    obtain ⟨u, hu1, hu2, hu3, hu4, hu5⟩ := update_axis _ _ hw hsum
    refine ⟨u, hu1, ?_, hu3, hu4, hu5⟩
    rw [hu2]
    delta Boid.applyForce
    simp only [hp, Vector3D.add_def]
    ext <;> simp
  -- Under containment alone the agent `outsideBoid` drifts towards `-x` by at
  -- least `MIN_SPEED` in every tick, without bound.
  have contain_drift (n : ℕ) :
      ∃ b : Boid, ∃ x v : ℝ,
        Simulation.updateSimulation^[n + 1] (Simulation.containOnly outsideBoid) = Simulation.containOnly b ∧
          b.position = ⟨x, 0, 0⟩ ∧ b.velocity = ⟨v, 0, 0⟩ ∧ b.acceleration = Vector3D.zero ∧
          v ≤ -(1 / 2) ∧ x ≤ 41 - ((n : ℝ) + 1) / 2 := by
    induction n with
    | zero =>
      obtain ⟨u, h1, h2, h3, _, h5⟩ :=
        contain_tick_axis outsideBoid 41 0 rfl rfl rfl (Or.inr ⟨rfl, by norm_num⟩)
      refine ⟨_, 41 + u, u, ?_, h2, h1, h3, h5, ?_⟩
      · simp only [Function.iterate_succ, Function.iterate_zero, Function.comp_apply, id_eq]
        exact Simulation.updateSimulation_containOnly outsideBoid
      · push_cast
        linarith
    | succ n ih =>
      obtain ⟨b, x, v, hit, hp, hv, ha, hvle, hx⟩ := ih
      obtain ⟨u, h1, h2, h3, _, h5⟩ := contain_tick_axis b x v hp hv ha (Or.inl hvle)
      refine ⟨_, x + u, u, ?_, h2, h1, h3, h5, ?_⟩
      · rw [Function.iterate_succ_apply', hit]
        exact Simulation.updateSimulation_containOnly b
      · push_cast
        linarith
  obtain ⟨b, x, v, hit, hp, _, _, _, hx⟩ := contain_drift 165
  refine ⟨b, x, ?_, hp, ?_⟩
  · rw [hit]
    rfl
  · norm_num at hx
    linarith

/-! ## Vector operations: division, normalisation, limit, distance -/

namespace Vector3D

theorem normalize_zero : zero.normalize = zero := by
  delta normalize
  dsimp only
  rw [magnitude_zero, if_neg (lt_irrefl 0)]

theorem limit_of_le (a : Vector3D) {m : ℝ} (h : a.magnitude ≤ m) : a.limit m = a := by
  delta limit
  dsimp only
  rw [if_neg (not_lt.mpr h)]

theorem limit_of_lt (a : Vector3D) {m : ℝ} (h : m < a.magnitude) :
    a.limit m = a.normalize * m := by
  delta limit
  dsimp only
  rw [if_pos h]

theorem limit_rescale (a : Vector3D) {m : ℝ} (hm : 0 ≤ m) (h : m < a.magnitude) :
    a.limit m = a * (m / a.magnitude) ∧ (a.limit m).magnitude = m := by
  have hpos : 0 < a.magnitude := lt_of_le_of_lt hm h
  refine ⟨?_, ?_⟩
  · rw [limit_of_lt a h, normalize_eq_mul a hpos]
    simp only [mul_def]
    ext <;> simp <;> ring
  · rw [limit_of_lt a h]
    exact magnitude_scaled_normalize a hpos hm

end Vector3D

/-- C16: dividing any vector by the scalar `0` returns the zero vector, and
`normalize` of the zero vector returns the zero vector; both operations are total
functions. -/
theorem zero_division_policy (v : Vector3D) :
    v / (0 : ℝ) = Vector3D.zero ∧ Vector3D.zero.normalize = Vector3D.zero := by
  have div_zero_eq (a : Vector3D) : a / (0 : ℝ) = Vector3D.zero := by
    rw [Vector3D.div_def, if_neg (by simp)]
  exact ⟨div_zero_eq v, Vector3D.normalize_zero⟩

/-- C17 (amended): in exact arithmetic, `distanceTo` is symmetric, and it is
zero exactly when the two vectors have equal components. -/
theorem distance_symmetric_and_definite (a b : Vector3D) :
    a.distanceTo b = b.distanceTo a ∧ (a.distanceTo b = 0 ↔ a = b) := by
  have sub_eq_zero_iff (a v : Vector3D) : a - v = Vector3D.zero ↔ a = v := by
    constructor
    · intro h
      have hx : (a - v).x = 0 := by rw [h]; rfl
      have hy : (a - v).y = 0 := by rw [h]; rfl
      have hz : (a - v).z = 0 := by rw [h]; rfl
      simp only [Vector3D.sub_def] at hx hy hz
      ext <;> linarith
    · intro h
      rw [h, Vector3D.sub_def]
      ext <;> (delta Vector3D.zero; simp)
  refine ⟨Vector3D.distanceTo_comm a b, ?_⟩
  delta Vector3D.distanceTo
  rw [Vector3D.magnitude_eq_zero_iff, sub_eq_zero_iff]

/-! ## The bound of `limit` -/

/-- C15 (amended): in exact arithmetic, for every vector `v` and every bound
`maxMag ≥ 0`, `limit` returns `v` unchanged when `|v| ≤ maxMag`, and otherwise
returns the non-negative multiple `v * (maxMag / |v|)` of `v`, whose magnitude is
exactly `maxMag`. -/
theorem limit_spec (v : Vector3D) (maxMag : ℝ) (h : 0 ≤ maxMag) :
    (v.magnitude ≤ maxMag → v.limit maxMag = v) ∧
      (maxMag < v.magnitude →
        v.limit maxMag = v * (maxMag / v.magnitude) ∧ 0 ≤ maxMag / v.magnitude ∧
          (v.limit maxMag).magnitude = maxMag) := by
  refine ⟨fun hle => Vector3D.limit_of_le v hle, fun hlt => ?_⟩
  obtain ⟨h1, h2⟩ := Vector3D.limit_rescale v h hlt
  exact ⟨h1, div_nonneg h v.magnitude_nonneg, h2⟩

/-- Witness of C15 (amended): the vector `(1, 0, 0)` with the bound `1 / 10`. -/
theorem limit_spec_witness :
    (0 : ℝ) ≤ 1 / 10 ∧
      (((⟨1, 0, 0⟩ : Vector3D).magnitude ≤ 1 / 10 →
          (⟨1, 0, 0⟩ : Vector3D).limit (1 / 10) = ⟨1, 0, 0⟩) ∧
        (1 / 10 < (⟨1, 0, 0⟩ : Vector3D).magnitude →
          (⟨1, 0, 0⟩ : Vector3D).limit (1 / 10)
              = (⟨1, 0, 0⟩ : Vector3D) * ((1 / 10) / (⟨1, 0, 0⟩ : Vector3D).magnitude) ∧
            0 ≤ (1 / 10) / (⟨1, 0, 0⟩ : Vector3D).magnitude ∧
            ((⟨1, 0, 0⟩ : Vector3D).limit (1 / 10)).magnitude = 1 / 10)) :=
  ⟨by norm_num, limit_spec ⟨1, 0, 0⟩ (1 / 10) (by norm_num)⟩

/-! ## `applyForce` and the integration step -/

namespace Vector3D

theorem vadd_assoc (a b c : Vector3D) : a + b + c = a + (b + c) := by
  simp only [add_def]
  ext <;> simp <;> ring

theorem vadd_comm (a b : Vector3D) : a + b = b + a := by
  simp only [add_def]
  ext <;> simp <;> ring

end Vector3D

/-- C14: after `Boid::update` the acceleration is exactly the zero vector, so the
acceleration that the next `update` sees after `applyForce(f)` is exactly `f`. -/
theorem acceleration_reset (b : Boid) (f : Vector3D) :
    b.update.acceleration = Vector3D.zero ∧ (b.update.applyForce f).acceleration = f := by
  refine ⟨rfl, ?_⟩
  delta Boid.applyForce
  dsimp only
  exact Vector3D.zero_vadd f

/-- C20 (amended): in exact arithmetic, with `w = velocity + acceleration`, after
`Boid::update` the velocity is `w` when `MIN_SPEED ≤ |w| ≤ MAX_SPEED` or `w` is zero, `w` rescaled to magnitude
`MAX_SPEED` when `|w| > MAX_SPEED`, and `w` rescaled to magnitude `MIN_SPEED` when
`0 < |w| < MIN_SPEED`; it is always a non-negative multiple of `w`; the new
position is the old position plus the new velocity, so a zero `w` leaves the
position unchanged. -/
theorem update_integration (b : Boid) :
    ((MIN_SPEED ≤ (b.velocity + b.acceleration).magnitude ∧
          (b.velocity + b.acceleration).magnitude ≤ MAX_SPEED) ∨
        b.velocity + b.acceleration = Vector3D.zero →
        b.update.velocity = b.velocity + b.acceleration) ∧
      (MAX_SPEED < (b.velocity + b.acceleration).magnitude →
        b.update.velocity
            = (b.velocity + b.acceleration)
              * (MAX_SPEED / (b.velocity + b.acceleration).magnitude) ∧
          b.update.velocity.magnitude = MAX_SPEED) ∧
      (0 < (b.velocity + b.acceleration).magnitude ∧
          (b.velocity + b.acceleration).magnitude < MIN_SPEED →
        b.update.velocity
            = (b.velocity + b.acceleration)
              * (MIN_SPEED / (b.velocity + b.acceleration).magnitude) ∧
          b.update.velocity.magnitude = MIN_SPEED) ∧
      (∃ c : ℝ, 0 ≤ c ∧ b.update.velocity = (b.velocity + b.acceleration) * c) ∧
      b.update.position = b.position + b.update.velocity ∧
      (b.velocity + b.acceleration = Vector3D.zero → b.update.position = b.position) := by
  have normalize_rescale (a : Vector3D) {m : ℝ} (hpos : 0 < a.magnitude) :
      a.normalize * m = a * (m / a.magnitude) := by
    rw [Vector3D.normalize_eq_mul a hpos]
    simp only [Vector3D.mul_def]
    ext <;> simp <;> ring
  have hminmax : MIN_SPEED < MAX_SPEED := by unfold MIN_SPEED MAX_SPEED; norm_num
  have hmul_one : ∀ a : Vector3D, a = a * (1 : ℝ) := by
    intro a
    simp [Vector3D.mul_def]
  have hvel := b.update_velocity
  have hkeep : ((MIN_SPEED ≤ (b.velocity + b.acceleration).magnitude ∧
        (b.velocity + b.acceleration).magnitude ≤ MAX_SPEED) ∨
      b.velocity + b.acceleration = Vector3D.zero) →
      b.update.velocity = b.velocity + b.acceleration := by
    intro h
    rw [hvel]
    rcases h with ⟨hlo, hhi⟩ | hz
    · rw [if_neg (not_lt.mpr hhi), if_neg (fun hc => absurd hc.1 (not_lt.mpr hlo))]
    · have h0 : (b.velocity + b.acceleration).magnitude = 0 := by
        rw [hz, Vector3D.magnitude_zero]
      rw [h0, if_neg (not_lt.mpr MAX_SPEED_nonneg), if_neg (fun hc => lt_irrefl 0 hc.2)]
  have hfast : MAX_SPEED < (b.velocity + b.acceleration).magnitude →
      b.update.velocity
          = (b.velocity + b.acceleration)
            * (MAX_SPEED / (b.velocity + b.acceleration).magnitude) ∧
        b.update.velocity.magnitude = MAX_SPEED := by
    intro h
    have hpos := lt_of_le_of_lt MAX_SPEED_nonneg h
    rw [hvel, if_pos h]
    exact ⟨normalize_rescale _ hpos,
      Vector3D.magnitude_scaled_normalize _ hpos MAX_SPEED_nonneg⟩
  have hslow : 0 < (b.velocity + b.acceleration).magnitude ∧
      (b.velocity + b.acceleration).magnitude < MIN_SPEED →
      b.update.velocity
          = (b.velocity + b.acceleration)
            * (MIN_SPEED / (b.velocity + b.acceleration).magnitude) ∧
        b.update.velocity.magnitude = MIN_SPEED := by
    intro h
    rw [hvel, if_neg (not_lt.mpr (le_of_lt (lt_trans h.2 hminmax))), if_pos ⟨h.2, h.1⟩]
    exact ⟨normalize_rescale _ h.1,
      Vector3D.magnitude_scaled_normalize _ h.1 MIN_SPEED_nonneg⟩
  refine ⟨hkeep, hfast, hslow, ?_, rfl, ?_⟩
  · by_cases h1 : MAX_SPEED < (b.velocity + b.acceleration).magnitude
    · exact ⟨_, div_nonneg MAX_SPEED_nonneg (Vector3D.magnitude_nonneg _), (hfast h1).1⟩
    · by_cases h2 : 0 < (b.velocity + b.acceleration).magnitude ∧
          (b.velocity + b.acceleration).magnitude < MIN_SPEED
      · exact ⟨_, div_nonneg MIN_SPEED_nonneg (Vector3D.magnitude_nonneg _), (hslow h2).1⟩
      · refine ⟨1, zero_le_one, ?_⟩
        rw [← hmul_one]
        apply hkeep
        by_cases h3 : 0 < (b.velocity + b.acceleration).magnitude
        · left
          refine ⟨?_, not_lt.mp h1⟩
          by_contra hc
          exact h2 ⟨h3, not_le.mp hc⟩
        · right
          exact (Vector3D.magnitude_eq_zero_iff _).mp
            (le_antisymm (not_lt.mp h3) (Vector3D.magnitude_nonneg _))
  · intro hz
    rw [b.update_position, hkeep (Or.inr hz), hz, Vector3D.vadd_zero]

/-! ## `flee` -/

namespace Vector3D

theorem limit_neg_axis {a m : ℝ} (ha : a < 0) (hm : m < -a) :
    (⟨a, 0, 0⟩ : Vector3D).limit m = ⟨-m, 0, 0⟩ := by
  have hmag : (⟨a, 0, 0⟩ : Vector3D).magnitude = -a := by
    rw [magnitude_axis, abs_of_neg ha]
  rw [limit_of_lt _ (by rw [hmag]; exact hm), normalize_neg_axis ha]
  simp [mul_def]

theorem normalize_pos_axis {a : ℝ} (ha : 0 < a) :
    (⟨a, 0, 0⟩ : Vector3D).normalize = ⟨1, 0, 0⟩ := by
  have hm : (⟨a, 0, 0⟩ : Vector3D).magnitude = a := by
    rw [magnitude_axis, abs_of_pos ha]
  have hpos : 0 < (⟨a, 0, 0⟩ : Vector3D).magnitude := by
    rw [hm]
    exact ha
  rw [normalize_eq_mul _ hpos, hm]
  have hne : a ≠ 0 := ne_of_gt ha
  simp only [mul_def]
  ext
  · simp only []
    field_simp
  · simp
  · simp

theorem limit_pos_axis {a m : ℝ} (ha : 0 < a) (hm : m < a) :
    (⟨a, 0, 0⟩ : Vector3D).limit m = ⟨m, 0, 0⟩ := by
  have hmag : (⟨a, 0, 0⟩ : Vector3D).magnitude = a := by
    rw [magnitude_axis, abs_of_pos ha]
  rw [limit_of_lt _ (by rw [hmag]; exact hm), normalize_pos_axis ha]
  simp [mul_def]

theorem limit_axis_of_le {a m : ℝ} (h : |a| ≤ m) :
    (⟨a, 0, 0⟩ : Vector3D).limit m = ⟨a, 0, 0⟩ :=
  limit_of_le _ (by rw [magnitude_axis]; exact h)

end Vector3D

/-- C11: for an agent at `(0, 0, 0)` with velocity `(1, 0, 0)` and a single
neighbour at `(2, 0, 0)` (the population being the neighbour alone, or the agent
and the neighbour), `separate` returns exactly `(-0.1, 0, 0)`: a non-zero vector
with strictly negative x component and magnitude at most `MAX_FORCE`. -/
theorem separation_scenario (a n : Boid) (hp : a.position = ⟨0, 0, 0⟩)
    (hv : a.velocity = ⟨1, 0, 0⟩) (hn : n.position = ⟨2, 0, 0⟩) :
    a.separate [n] = ⟨-(1 / 10), 0, 0⟩ ∧ a.separate [a, n] = ⟨-(1 / 10), 0, 0⟩ ∧
      a.separate [n] ≠ Vector3D.zero ∧ (a.separate [n]).x < 0 ∧
      (a.separate [n]).magnitude ≤ MAX_FORCE := by
  -- The separation force in the scenario of an agent at the origin with velocity
  -- `(1, 0, 0)` and one neighbour at `(2, 0, 0)`.
  have scenario_force (a n : Boid) (hp : a.position = ⟨0, 0, 0⟩) (hv : a.velocity = ⟨1, 0, 0⟩)
      (hn : n.position = ⟨2, 0, 0⟩) :
      a.inRange SEPARATION_RADIUS n ∧
        ((a.position - n.position).normalize * MAX_SPEED - a.velocity).limit MAX_FORCE
          = ⟨-(1 / 10), 0, 0⟩ := by
    have hdiff : a.position - n.position = ⟨-2, 0, 0⟩ := by
      rw [hp, hn]
      simp [Vector3D.sub_def]
    have hmag : (⟨-2, 0, 0⟩ : Vector3D).magnitude = 2 := by
      rw [Vector3D.magnitude_axis, abs_neg]
      norm_num
    refine ⟨?_, ?_⟩
    · delta Boid.inRange Vector3D.distanceTo
      rw [hdiff, hmag]
      exact ⟨by norm_num, by unfold SEPARATION_RADIUS; norm_num⟩
    · rw [hdiff, hv, Vector3D.normalize_neg_axis (by norm_num)]
      have hw : (⟨-1, 0, 0⟩ : Vector3D) * MAX_SPEED - ⟨1, 0, 0⟩ = ⟨-3, 0, 0⟩ := by
        delta MAX_SPEED
        simp only [Vector3D.mul_def, Vector3D.sub_def]
        ext <;> norm_num
      rw [hw]
      exact Vector3D.limit_neg_axis (by norm_num) (by unfold MAX_FORCE; norm_num)
  obtain ⟨hr, hf⟩ := scenario_force a n hp hv hn
  have h1 : a.separate [n] = ⟨-(1 / 10), 0, 0⟩ := by
    rw [Boid.separate_single a n hr, hf]
  have h2 : a.separate [a, n] = ⟨-(1 / 10), 0, 0⟩ := by
    rw [Boid.separate_pair_first a n hr, hf]
  refine ⟨h1, h2, ?_, ?_, ?_⟩
  · rw [h1]
    intro hz
    have hx : (⟨-(1 / 10), 0, 0⟩ : Vector3D).x = Vector3D.zero.x := by rw [hz]
    delta Vector3D.zero at hx
    simp at hx
  · rw [h1]
    norm_num
  · rw [h1, Vector3D.magnitude_axis, abs_neg]
    unfold MAX_FORCE
    rw [abs_of_pos (by norm_num)]

/-- Witness of C11: the agents `slowBoid` and `eastBoid`. -/
theorem separation_scenario_witness :
    slowBoid.separate [eastBoid] = ⟨-(1 / 10), 0, 0⟩ ∧
      slowBoid.separate [slowBoid, eastBoid] = ⟨-(1 / 10), 0, 0⟩ ∧
      slowBoid.separate [eastBoid] ≠ Vector3D.zero ∧ (slowBoid.separate [eastBoid]).x < 0 ∧
      (slowBoid.separate [eastBoid]).magnitude ≤ MAX_FORCE :=
  separation_scenario slowBoid eastBoid rfl rfl rfl

/-! ## Predator: the nearest-agent scan -/

namespace Predator

theorem velocity_after_update (p : Predator) (boids : List Boid) :
    (p.update boids).velocity = p.nudge (p.chase (p.nearestPos boids)) := rfl

/-- Agents that are not nearer than `nearestDist` leave the scan state unchanged. -/
theorem scan_keep (p : Predator) (post : List Boid) (acc : ℝ × Vector3D)
    (hpost : ∀ o ∈ post, acc.1 ≤ p.position.distanceTo o.position) :
    post.foldl (nearestStep p) acc = acc := by
  induction post with
  | nil => rfl
  | cons a rest ih =>
    rw [List.foldl_cons]
    have hstep : nearestStep p acc a = acc := by
      delta nearestStep
      dsimp only
      rw [if_neg (not_lt.mpr (hpost a (List.mem_cons_self a rest)))]
    rw [hstep]
    exact ih (fun o ho => hpost o (List.mem_cons_of_mem a ho))

/-- The scan returns the position of the first agent at minimal distance, when
that distance is below the initial `nearestDist = WORLD_SIZE * 2`. -/
theorem nearestPos_first_min (p : Predator) (pre : List Boid) (t : Boid) (post : List Boid)
    (hpre : ∀ o ∈ pre, p.position.distanceTo t.position < p.position.distanceTo o.position)
    (hpost : ∀ o ∈ post, p.position.distanceTo t.position ≤ p.position.distanceTo o.position)
    (hnear : p.position.distanceTo t.position < WORLD_SIZE * 2) :
    p.nearestPos (pre ++ t :: post) = t.position := by
  -- While every scanned agent is further than `D`, `nearestDist` stays above `D`.
  have scan_above (p : Predator) (D : ℝ) (pre : List Boid) (acc : ℝ × Vector3D)
      (hacc : D < acc.1) (hpre : ∀ o ∈ pre, D < p.position.distanceTo o.position) :
      D < (pre.foldl (nearestStep p) acc).1 := by
    induction pre generalizing acc with
    | nil => exact hacc
    | cons a rest ih =>
      rw [List.foldl_cons]
      apply ih
      · delta nearestStep
        dsimp only
        split_ifs
        · exact hpre a (List.mem_cons_self a rest)
        · exact hacc
      · intro o ho
        exact hpre o (List.mem_cons_of_mem a ho)
  have habove := scan_above p (p.position.distanceTo t.position) pre
    (WORLD_SIZE * 2, p.position) hnear hpre
  have hstep : nearestStep p (pre.foldl (nearestStep p) (WORLD_SIZE * 2, p.position)) t
      = (p.position.distanceTo t.position, t.position) := by
    exact if_pos habove
  delta nearestPos
  rw [List.foldl_append, List.foldl_cons, hstep, p.scan_keep post _ hpost]

end Predator

/-- Where the scan works: for every predator state and every population in which
some agent is nearer than the initial `nearestDist = 2 * WORLD_SIZE`,
`Predator::update` steers toward the first agent `t` (in population order) at
minimal distance: the velocity before the boundary statements is
`velocity + steer` limited to `0.8 * MAX_SPEED`, where the desired velocity is the
unit direction to `t` times `0.7 * MAX_SPEED` and `steer` is `desired - velocity`
limited to `0.5 * MAX_FORCE`. -/
theorem predator_steers_to_first_nearest (p : Predator) (boids : List Boid)
    (h : ∃ o ∈ boids, p.position.distanceTo o.position < WORLD_SIZE * 2) :
    ∃ pre t post, boids = pre ++ t :: post ∧
      (∀ o ∈ pre, p.position.distanceTo t.position < p.position.distanceTo o.position) ∧
      (∀ o ∈ post, p.position.distanceTo t.position ≤ p.position.distanceTo o.position) ∧
      p.nearestPos boids = t.position ∧
      (p.update boids).velocity
        = p.nudge
            ((p.velocity
                + ((t.position - p.position).normalize * (MAX_SPEED * (7 / 10)) - p.velocity).limit
                    (MAX_FORCE * (1 / 2))).limit
              (MAX_SPEED * (8 / 10))) ∧
      (p.update boids).position = p.position + (p.update boids).velocity := by
  have position_after_update (p : Predator) (boids : List Boid) :
      (p.update boids).position = p.position + (p.update boids).velocity := rfl
  -- Every non-empty list has a first element of minimal value: it splits into
  -- a prefix of strictly larger elements, the element, and a suffix of elements that
  -- are not smaller.
  have exists_first_min (f : Boid → ℝ) (l : List Boid) (hl : l ≠ []) :
      ∃ pre t post, l = pre ++ t :: post ∧ (∀ o ∈ pre, f t < f o) ∧ (∀ o ∈ post, f t ≤ f o) := by
    induction l with
    | nil => exact absurd rfl hl
    | cons a rest ih =>
      by_cases hrest : rest = []
      · subst hrest
        exact ⟨[], a, [], rfl, by simp, by simp⟩
      · obtain ⟨pre, t, post, hsplit, hpre, hpost⟩ := ih hrest
        by_cases hat : f a ≤ f t
        · refine ⟨[], a, rest, rfl, by simp, ?_⟩
          intro o ho
          rw [hsplit] at ho
          rcases List.mem_append.mp ho with h1 | h2
          · exact le_trans hat (le_of_lt (hpre o h1))
          · rcases List.mem_cons.mp h2 with h3 | h4
            · rw [h3]
              exact hat
            · exact le_trans hat (hpost o h4)
        · refine ⟨a :: pre, t, post, by rw [hsplit]; rfl, ?_, hpost⟩
          intro o ho
          rcases List.mem_cons.mp ho with h1 | h2
          · rw [h1]
            exact not_le.mp hat
          · exact hpre o h2
  obtain ⟨o, ho, hofar⟩ := h
  have hne : boids ≠ [] := List.ne_nil_of_mem ho
  obtain ⟨pre, t, post, hsplit, hpre, hpost⟩ :=
    exists_first_min (fun c => p.position.distanceTo c.position) boids hne
  have hmin : p.position.distanceTo t.position ≤ p.position.distanceTo o.position := by
    rw [hsplit] at ho
    rcases List.mem_append.mp ho with h1 | h2
    · exact le_of_lt (hpre o h1)
    · rcases List.mem_cons.mp h2 with h3 | h4
      · rw [h3]
      · exact hpost o h4
  have hpos : p.nearestPos boids = t.position := by
    rw [hsplit]
    exact p.nearestPos_first_min pre t post hpre hpost (lt_of_le_of_lt hmin hofar)
  refine ⟨pre, t, post, hsplit, hpre, hpost, hpos, ?_, position_after_update p boids⟩
  rw [p.velocity_after_update, hpos]
  rfl

namespace Predator

theorem nudge_inside (p : Predator) (v : Vector3D)
    (hx : |p.position.x| ≤ WORLD_HALF * (9 / 10)) (hy : |p.position.y| ≤ WORLD_HALF * (9 / 10))
    (hz : |p.position.z| ≤ WORLD_HALF * (9 / 10)) : p.nudge v = v := by
  have hx2 := abs_le.mp hx
  have hy2 := abs_le.mp hy
  have hz2 := abs_le.mp hz
  delta nudge
  dsimp only
  rw [if_neg (not_lt.mpr hx2.2), if_neg (not_lt.mpr hx2.1), if_neg (not_lt.mpr hy2.2),
    if_neg (not_lt.mpr hy2.1), if_neg (not_lt.mpr hz2.2), if_neg (not_lt.mpr hz2.1)]

end Predator

theorem originPredator_inside :
    |originPredator.position.x| ≤ WORLD_HALF * (9 / 10) ∧
      |originPredator.position.y| ≤ WORLD_HALF * (9 / 10) ∧
      |originPredator.position.z| ≤ WORLD_HALF * (9 / 10) := by
  delta originPredator WORLD_HALF WORLD_SIZE
  simp only [abs_zero]
  norm_num

/-- C12 fails on the code when every agent is at `2 * WORLD_SIZE` or further:
the scan of `Predator::update`, commented "Find nearest boid", starts from
`nearestDist = WORLD_SIZE * 2` and misses such agents. For `originPredator`
(velocity `(1, 0, 0)`) and the population of `farBoid` alone (at distance `300`)
the scan returns the predator's own position, the steering brakes and the new
velocity is `(0.95, 0, 0)`, where steering toward the nearest agent `farBoid` as
the claim describes gives `(1.05, 0, 0)`. -/
theorem predator_misses_far_agent :
    originPredator.nearestPos [farBoid] = originPredator.position ∧
      (originPredator.update [farBoid]).velocity = ⟨19 / 20, 0, 0⟩ ∧
      originPredator.nudge
          ((originPredator.velocity
              + ((farBoid.position - originPredator.position).normalize * (MAX_SPEED * (7 / 10))
                  - originPredator.velocity).limit (MAX_FORCE * (1 / 2))).limit
            (MAX_SPEED * (8 / 10)))
        = ⟨21 / 20, 0, 0⟩ := by
  -- When no agent is nearer than the initial `nearestDist = WORLD_SIZE * 2`, the
  -- scan returns the predator's own position.
  have nearestPos_none_near (p : Predator) (boids : List Boid)
      (h : ∀ o ∈ boids, WORLD_SIZE * 2 ≤ p.position.distanceTo o.position) :
      p.nearestPos boids = p.position := by
    delta Predator.nearestPos
    rw [p.scan_keep boids _ h]
  obtain ⟨hx, hy, hz⟩ := originPredator_inside
  have hfar : ∀ o ∈ [farBoid],
      WORLD_SIZE * 2 ≤ originPredator.position.distanceTo o.position := by
    intro o ho
    rw [List.mem_singleton.mp ho]
    have hdiff : originPredator.position - farBoid.position = ⟨-300, 0, 0⟩ := by
      delta originPredator farBoid
      simp [Vector3D.sub_def]
    delta Vector3D.distanceTo
    rw [hdiff, Vector3D.magnitude_axis, abs_neg, abs_of_pos (by norm_num)]
    unfold WORLD_SIZE
    norm_num
  have hscan := nearestPos_none_near originPredator [farBoid] hfar
  refine ⟨hscan, ?_, ?_⟩
  · rw [Predator.velocity_after_update, hscan, Predator.nudge_inside _ _ hx hy hz]
    delta Predator.chase
    dsimp only
    have h0 : originPredator.position - originPredator.position = Vector3D.zero := by
      delta originPredator Vector3D.zero
      simp [Vector3D.sub_def]
    have h1 : Vector3D.zero * (MAX_SPEED * (7 / 10)) - originPredator.velocity
        = ⟨-1, 0, 0⟩ := by
      delta originPredator Vector3D.zero
      simp [Vector3D.sub_def, Vector3D.mul_def]
    have h2 : originPredator.velocity + (⟨-(MAX_FORCE * (1 / 2)), 0, 0⟩ : Vector3D)
        = ⟨19 / 20, 0, 0⟩ := by
      delta originPredator MAX_FORCE
      simp only [Vector3D.add_def]
      ext <;> norm_num
    rw [h0, Vector3D.normalize_zero, h1,
      Vector3D.limit_neg_axis (by norm_num) (by unfold MAX_FORCE; norm_num), h2]
    apply Vector3D.limit_axis_of_le
    unfold MAX_SPEED
    rw [abs_of_pos (by norm_num)]
    norm_num
  · rw [Predator.nudge_inside _ _ hx hy hz]
    have h0 : farBoid.position - originPredator.position = ⟨300, 0, 0⟩ := by
      delta originPredator farBoid
      simp [Vector3D.sub_def]
    have h1 : (⟨1, 0, 0⟩ : Vector3D) * (MAX_SPEED * (7 / 10)) - originPredator.velocity
        = ⟨2 / 5, 0, 0⟩ := by
      delta originPredator MAX_SPEED
      simp only [Vector3D.sub_def, Vector3D.mul_def]
      ext <;> norm_num
    have h2 : originPredator.velocity + (⟨MAX_FORCE * (1 / 2), 0, 0⟩ : Vector3D)
        = ⟨21 / 20, 0, 0⟩ := by
      delta originPredator MAX_FORCE
      simp only [Vector3D.add_def]
      ext <;> norm_num
    rw [h0, Vector3D.normalize_pos_axis (by norm_num), h1,
      Vector3D.limit_pos_axis (by norm_num) (by unfold MAX_FORCE; norm_num), h2]
    apply Vector3D.limit_axis_of_le
    unfold MAX_SPEED
    rw [abs_of_pos (by norm_num)]
    norm_num

/-! ## Predator: the speed cap and the boundary statements -/

namespace Vector3D

theorem magnitude_add_le (a v : Vector3D) : (a + v).magnitude ≤ a.magnitude + v.magnitude := by
  have hcs : a.x * v.x + a.y * v.y + a.z * v.z ≤ a.magnitude * v.magnitude :=
    dot_le_magnitude_mul a v
  have ha := a.magnitude_mul_self
  have hv := v.magnitude_mul_self
  have hnn : 0 ≤ a.magnitude + v.magnitude := add_nonneg a.magnitude_nonneg v.magnitude_nonneg
  have hgoal : (a + v).magnitude
      = Real.sqrt ((a.x + v.x) * (a.x + v.x) + (a.y + v.y) * (a.y + v.y)
          + (a.z + v.z) * (a.z + v.z)) := rfl
  rw [hgoal, Real.sqrt_le_iff]
  refine ⟨hnn, ?_⟩
  nlinarith

end Vector3D

/-- C13 fails as stated when the predator is beyond the boundary margin: for
`edgePredator` (at `(46, 0, 0)`, velocity `(-1.6, 0, 0)`) and the population of
`slowBoid`, the velocity after `Predator::update` is `(-1.65, 0, 0)`, of magnitude
`1.65 > 0.8 * MAX_SPEED = 1.6`. -/
theorem predator_speed_counterexample :
    (edgePredator.update [slowBoid]).velocity = ⟨-(33 / 20), 0, 0⟩ ∧
      (edgePredator.update [slowBoid]).velocity.magnitude > MAX_SPEED * (8 / 10) := by
  have hdiff : edgePredator.position - slowBoid.position = ⟨46, 0, 0⟩ := by
    delta edgePredator slowBoid
    simp [Vector3D.sub_def]
  have hd : edgePredator.position.distanceTo slowBoid.position < WORLD_SIZE * 2 := by
    delta Vector3D.distanceTo
    rw [hdiff, Vector3D.magnitude_axis, abs_of_pos (by norm_num)]
    unfold WORLD_SIZE
    norm_num
  have hscan : edgePredator.nearestPos [slowBoid] = slowBoid.position :=
    edgePredator.nearestPos_first_min [] slowBoid [] (by simp) (by simp) hd
  have hchase : edgePredator.chase slowBoid.position = ⟨-(31 / 20), 0, 0⟩ := by
    delta Predator.chase
    dsimp only
    have h0 : slowBoid.position - edgePredator.position = ⟨-46, 0, 0⟩ := by
      delta edgePredator slowBoid
      simp [Vector3D.sub_def]
    have h1 : (⟨-1, 0, 0⟩ : Vector3D) * (MAX_SPEED * (7 / 10)) - edgePredator.velocity
        = ⟨1 / 5, 0, 0⟩ := by
      delta edgePredator MAX_SPEED
      simp only [Vector3D.sub_def, Vector3D.mul_def]
      ext <;> norm_num
    have h2 : edgePredator.velocity + (⟨MAX_FORCE * (1 / 2), 0, 0⟩ : Vector3D)
        = ⟨-(31 / 20), 0, 0⟩ := by
      delta edgePredator MAX_FORCE
      simp only [Vector3D.add_def]
      ext <;> norm_num
    rw [h0, Vector3D.normalize_neg_axis (by norm_num), h1,
      Vector3D.limit_pos_axis (by norm_num) (by unfold MAX_FORCE; norm_num), h2]
    apply Vector3D.limit_axis_of_le
    unfold MAX_SPEED
    rw [abs_neg, abs_of_pos (by norm_num)]
    norm_num
  have hvel : (edgePredator.update [slowBoid]).velocity = ⟨-(33 / 20), 0, 0⟩ := by
    rw [Predator.velocity_after_update, hscan, hchase]
    delta edgePredator Predator.nudge WORLD_HALF WORLD_SIZE
    dsimp only
    norm_num
  refine ⟨hvel, ?_⟩
  rw [hvel, Vector3D.magnitude_axis, abs_neg, abs_of_pos (by norm_num)]
  unfold MAX_SPEED
  norm_num

/-- C13 (amended): for every predator state and every population, the velocity
after `Predator::update` has magnitude at most `0.8 * MAX_SPEED` when the
predator's position lies within the boundary margin `0.9 * WORLD_HALF` on every
axis, and at most `0.8 * MAX_SPEED + 0.1 * √3` in every case (the boundary
statements add `0.1` to a component after the cap). -/
theorem predator_speed_bound (p : Predator) (boids : List Boid) :
    (|p.position.x| ≤ WORLD_HALF * (9 / 10) ∧ |p.position.y| ≤ WORLD_HALF * (9 / 10) ∧
        |p.position.z| ≤ WORLD_HALF * (9 / 10) →
        (p.update boids).velocity.magnitude ≤ MAX_SPEED * (8 / 10)) ∧
      (p.update boids).velocity.magnitude ≤ MAX_SPEED * (8 / 10) + Real.sqrt 3 * (1 / 10) := by
  have nudge_step_le (c d : Prop) [Decidable c] [Decidable d] (a : ℝ) :
      |(if d then (if c then a - 1 / 10 else a) + 1 / 10 else (if c then a - 1 / 10 else a)) - a|
        ≤ 1 / 10 := by
    split_ifs <;> norm_num [abs_le]
  -- The boundary statements act on each velocity component separately.
  have nudge_eq (p : Predator) (v : Vector3D) :
      p.nudge v =
        ⟨if p.position.x < -(WORLD_HALF * (9 / 10)) then
            (if p.position.x > WORLD_HALF * (9 / 10) then v.x - 1 / 10 else v.x) + 1 / 10
          else (if p.position.x > WORLD_HALF * (9 / 10) then v.x - 1 / 10 else v.x),
         if p.position.y < -(WORLD_HALF * (9 / 10)) then
            (if p.position.y > WORLD_HALF * (9 / 10) then v.y - 1 / 10 else v.y) + 1 / 10
          else (if p.position.y > WORLD_HALF * (9 / 10) then v.y - 1 / 10 else v.y),
         if p.position.z < -(WORLD_HALF * (9 / 10)) then
            (if p.position.z > WORLD_HALF * (9 / 10) then v.z - 1 / 10 else v.z) + 1 / 10
          else (if p.position.z > WORLD_HALF * (9 / 10) then v.z - 1 / 10 else v.z)⟩ := by
    delta Predator.nudge
    dsimp only
    by_cases h1 : p.position.x > WORLD_HALF * (9 / 10) <;>
      by_cases h2 : p.position.x < -(WORLD_HALF * (9 / 10)) <;>
      by_cases h3 : p.position.y > WORLD_HALF * (9 / 10) <;>
      by_cases h4 : p.position.y < -(WORLD_HALF * (9 / 10)) <;>
      by_cases h5 : p.position.z > WORLD_HALF * (9 / 10) <;>
      by_cases h6 : p.position.z < -(WORLD_HALF * (9 / 10)) <;>
      simp only [h1, h2, h3, h4, h5, h6, if_true, if_false]
  have magnitude_le_of_components (n : Vector3D) {c : ℝ} (hc : 0 ≤ c) (hx : |n.x| ≤ c)
      (hy : |n.y| ≤ c) (hz : |n.z| ≤ c) : n.magnitude ≤ Real.sqrt 3 * c := by
    have h3 : Real.sqrt 3 * Real.sqrt 3 = 3 := Real.mul_self_sqrt (by norm_num)
    have hs : 0 ≤ Real.sqrt 3 := Real.sqrt_nonneg 3
    have hx2 : n.x * n.x ≤ c * c := by
      have := abs_mul_abs_self n.x
      nlinarith [abs_nonneg n.x]
    have hy2 : n.y * n.y ≤ c * c := by
      have := abs_mul_abs_self n.y
      nlinarith [abs_nonneg n.y]
    have hz2 : n.z * n.z ≤ c * c := by
      have := abs_mul_abs_self n.z
      nlinarith [abs_nonneg n.z]
    delta Vector3D.magnitude
    rw [Real.sqrt_le_iff]
    refine ⟨mul_nonneg hs hc, ?_⟩
    have hsq : (Real.sqrt 3 * c) ^ 2 = 3 * (c * c) := by
      rw [pow_two]
      calc Real.sqrt 3 * c * (Real.sqrt 3 * c) = (Real.sqrt 3 * Real.sqrt 3) * (c * c) := by ring
        _ = 3 * (c * c) := by rw [h3]
    rw [hsq]
    linarith
  have nudge_eq_add (p : Predator) (v : Vector3D) : p.nudge v = v + (p.nudge v - v) := by
    simp only [Vector3D.add_def, Vector3D.sub_def]
    ext <;> simp
  -- The boundary statements change each velocity component by at most `0.1`.
  have nudge_components (p : Predator) (v : Vector3D) :
      |(p.nudge v - v).x| ≤ 1 / 10 ∧ |(p.nudge v - v).y| ≤ 1 / 10 ∧
        |(p.nudge v - v).z| ≤ 1 / 10 := by
    rw [nudge_eq p v]
    exact ⟨nudge_step_le _ _ _, nudge_step_le _ _ _, nudge_step_le _ _ _⟩
  have magnitude_nudge_le (p : Predator) (v : Vector3D) :
      (p.nudge v).magnitude ≤ v.magnitude + Real.sqrt 3 * (1 / 10) := by
    obtain ⟨hx, hy, hz⟩ := nudge_components p v
    have hn := magnitude_le_of_components (p.nudge v - v) (by norm_num) hx hy hz
    have ht := Vector3D.magnitude_add_le v (p.nudge v - v)
    rw [← nudge_eq_add p v] at ht
    linarith
  have magnitude_chase_le (p : Predator) (target : Vector3D) :
      (p.chase target).magnitude ≤ MAX_SPEED * (8 / 10) := by
    delta Predator.chase
    dsimp only
    exact Vector3D.magnitude_limit_le _ (by unfold MAX_SPEED; norm_num)
  have hc := magnitude_chase_le p (p.nearestPos boids)
  refine ⟨?_, ?_⟩
  · intro h
    rw [p.velocity_after_update, p.nudge_inside _ h.1 h.2.1 h.2.2]
    exact hc
  · rw [p.velocity_after_update]
    exact le_trans (magnitude_nudge_le p _) (by linarith)

/-- Witness of C13 (amended): `originPredator`, inside the margin, with the
population of `slowBoid`. -/
theorem predator_speed_bound_witness :
    (originPredator.update [slowBoid]).velocity.magnitude ≤ MAX_SPEED * (8 / 10) ∧
      (originPredator.update [slowBoid]).velocity.magnitude
        ≤ MAX_SPEED * (8 / 10) + Real.sqrt 3 * (1 / 10) :=
  ⟨(predator_speed_bound originPredator [slowBoid]).1 originPredator_inside,
    (predator_speed_bound originPredator [slowBoid]).2⟩

/-! ## Boundary containment, per axis -/

namespace Vector3D

theorem limit_eq_zero_iff (a : Vector3D) {m : ℝ} (hm : 0 < m) : a.limit m = zero ↔ a = zero := by
  constructor
  · intro h
    by_cases hlt : m < a.magnitude
    · have hmag := (limit_rescale a (le_of_lt hm) hlt).2
      rw [h, magnitude_zero] at hmag
      exact absurd hmag (ne_of_lt hm)
    · rw [limit_of_le a (not_lt.mp hlt)] at h
      exact h
  · intro h
    rw [h]
    exact limit_of_le zero (by rw [magnitude_zero]; exact le_of_lt hm)

end Vector3D

theorem MAX_FORCE_pos : 0 < MAX_FORCE := by
  unfold MAX_FORCE; norm_num

namespace Boid

theorem avoidStep_eq (b : Boid) (steer : Vector3D) (obs : Obstacle) :
    b.avoidStep steer obs = if b.nearObstacle obs then steer + b.awayTerm obs else steer := rfl

end Boid

/-- C23: for every simulation state and every setting of the enable flags, if
all seven behaviour weights are non-negative then the force passed to `applyForce`
for any agent has magnitude at most `(separationWeight + alignmentWeight +
cohesionWeight + goalWeight + boundaryWeight) * MAX_FORCE + (obstacleWeight +
predatorWeight) * 2 * MAX_FORCE`, which is `1.55` for the default weights. -/
theorem blended_force_bound (s : Simulation) (boid : Boid)
    (h1 : 0 ≤ s.separationWeight) (h2 : 0 ≤ s.alignmentWeight) (h3 : 0 ≤ s.cohesionWeight)
    (h4 : 0 ≤ s.obstacleWeight) (h5 : 0 ≤ s.predatorWeight) (h6 : 0 ≤ s.goalWeight)
    (h7 : 0 ≤ s.boundaryWeight) :
    (s.boidForce boid).magnitude
        ≤ (s.separationWeight + s.alignmentWeight + s.cohesionWeight + s.goalWeight
              + s.boundaryWeight) * MAX_FORCE
            + (s.obstacleWeight + s.predatorWeight) * (2 * MAX_FORCE) ∧
      (s.separationWeight = 3 / 2 ∧ s.alignmentWeight = 1 ∧ s.cohesionWeight = 1 ∧
          s.obstacleWeight = 2 ∧ s.predatorWeight = 3 ∧ s.goalWeight = 1 / 2 ∧
          s.boundaryWeight = 3 / 2 →
        (s.boidForce boid).magnitude ≤ 31 / 20) := by
  have magnitude_weighted_le (e : Prop) [Decidable e] (v : Vector3D) {w cap : ℝ} (hw : 0 ≤ w)
      (hv : v.magnitude ≤ cap) : (if e then v * w else Vector3D.zero).magnitude ≤ w * cap := by
    have hcap : 0 ≤ cap := le_trans v.magnitude_nonneg hv
    split_ifs
    · rw [Vector3D.magnitude_mul, abs_of_nonneg hw, mul_comm]
      exact mul_le_mul_of_nonneg_left hv hw
    · rw [Vector3D.magnitude_zero]
      exact mul_nonneg hw hcap
  have magnitude_add_bound (a t : Vector3D) {A T : ℝ} (ha : a.magnitude ≤ A)
      (ht : t.magnitude ≤ T) : (a + t).magnitude ≤ A + T :=
    le_trans (Vector3D.magnitude_add_le a t) (add_le_add ha ht)
  have magnitude_weightedSum_le (s : Simulation) (population : List Boid) (boid : Boid)
      (h1 : 0 ≤ s.separationWeight) (h2 : 0 ≤ s.alignmentWeight) (h3 : 0 ≤ s.cohesionWeight)
      (h4 : 0 ≤ s.obstacleWeight) (h5 : 0 ≤ s.predatorWeight) (h6 : 0 ≤ s.goalWeight)
      (h7 : 0 ≤ s.boundaryWeight) :
      (s.weightedSum population boid).magnitude
        ≤ (s.separationWeight + s.alignmentWeight + s.cohesionWeight + s.goalWeight
              + s.boundaryWeight) * MAX_FORCE
            + (s.obstacleWeight + s.predatorWeight) * (2 * MAX_FORCE) := by
    have t1 := magnitude_weighted_le (s.separationEnabled = true) _ h1
      (boid.magnitude_separate_le population)
    have t2 := magnitude_weighted_le (s.alignmentEnabled = true) _ h2
      (boid.magnitude_align_le population)
    have t3 := magnitude_weighted_le (s.cohesionEnabled = true) _ h3
      (boid.magnitude_cohere_le population)
    have t4 := magnitude_weighted_le (s.obstaclesEnabled = true) _ h4
      (boid.magnitude_avoid_le s.obstacles)
    have t5 := magnitude_weighted_le (s.predatorEnabled = true) _ h5
      (boid.magnitude_flee_le s.predator.position PREDATOR_RADIUS)
    have t6 := magnitude_weighted_le (s.goalEnabled = true) _ h6
      (boid.magnitude_seek_le s.goal)
    have t7 := magnitude_weighted_le True _ h7 boid.magnitude_contain_le
    rw [if_pos trivial] at t7
    have a0 : Vector3D.zero.magnitude ≤ 0 := le_of_eq Vector3D.magnitude_zero
    have a1 := magnitude_add_bound _ _ a0 t1
    have a2 := magnitude_add_bound _ _ a1 t2
    have a3 := magnitude_add_bound _ _ a2 t3
    have a4 := magnitude_add_bound _ _ a3 t4
    have a5 := magnitude_add_bound _ _ a4 t5
    have a6 := magnitude_add_bound _ _ a5 t6
    have a7 := magnitude_add_bound _ _ a6 t7
    delta Simulation.weightedSum
    simp only [List.foldl]
    linarith
  have hb := magnitude_weightedSum_le s s.boids boid h1 h2 h3 h4 h5 h6 h7
  rw [← s.boidForce_eq_weightedSum boid] at hb
  refine ⟨hb, ?_⟩
  rintro ⟨e1, e2, e3, e4, e5, e6, e7⟩
  rw [e1, e2, e3, e4, e5, e6, e7] at hb
  unfold MAX_FORCE at hb
  norm_num at hb
  exact hb

/-- Witness of C23: the default weights of `main.cpp`, in the state
`containOnly outsideBoid`. -/
theorem blended_force_bound_witness :
    ((Simulation.containOnly outsideBoid).boidForce outsideBoid).magnitude
        ≤ ((Simulation.containOnly outsideBoid).separationWeight
              + (Simulation.containOnly outsideBoid).alignmentWeight
              + (Simulation.containOnly outsideBoid).cohesionWeight
              + (Simulation.containOnly outsideBoid).goalWeight
              + (Simulation.containOnly outsideBoid).boundaryWeight) * MAX_FORCE
            + ((Simulation.containOnly outsideBoid).obstacleWeight
              + (Simulation.containOnly outsideBoid).predatorWeight) * (2 * MAX_FORCE) ∧
      ((Simulation.containOnly outsideBoid).boidForce outsideBoid).magnitude ≤ 31 / 20 := by
  have h := blended_force_bound (Simulation.containOnly outsideBoid) outsideBoid
    (by (delta Simulation.containOnly; dsimp only); norm_num)
    (by (delta Simulation.containOnly; dsimp only); norm_num)
    (by (delta Simulation.containOnly; dsimp only); norm_num)
    (by (delta Simulation.containOnly; dsimp only); norm_num)
    (by (delta Simulation.containOnly; dsimp only); norm_num)
    (by (delta Simulation.containOnly; dsimp only); norm_num)
    (by (delta Simulation.containOnly; dsimp only); norm_num)
  exact ⟨h.1, h.2 ⟨rfl, rfl, rfl, rfl, rfl, rfl, rfl⟩⟩

/-! ## Divisors are strictly positive -/

/-- C24: for every input, every division executed inside `separate`, `align`,
`cohere`, `flee` and `avoidObstacles` has a strictly positive divisor on the
branch where it runs, so none of them divides by zero. -/
theorem divisors_positive (b : Boid) (boids : List Boid) (target : Vector3D) (radius : ℝ)
    (obstacles : List Obstacle) :
    (∀ x ∈ b.separateDivisors boids, 0 < x) ∧ (∀ x ∈ b.alignDivisors boids, 0 < x) ∧
      (∀ x ∈ b.cohereDivisors boids, 0 < x) ∧ (∀ x ∈ b.fleeDivisors target radius, 0 < x) ∧
      (∀ x ∈ b.avoidDivisors obstacles, 0 < x) := by
  have pos_nil : ∀ x ∈ ([] : List ℝ), 0 < x := by
    intro x hx
    exact absurd hx (List.not_mem_nil x)
  have pos_append {l₁ l₂ : List ℝ} (h₁ : ∀ x ∈ l₁, 0 < x) (h₂ : ∀ x ∈ l₂, 0 < x) :
      ∀ x ∈ l₁ ++ l₂, 0 < x := by
    intro x hx
    rcases List.mem_append.mp hx with h | h
    · exact h₁ x h
    · exact h₂ x h
  have pos_singleton {s : ℝ} (hs : 0 < s) : ∀ x ∈ [s], 0 < x := by
    intro x hx
    rw [List.mem_singleton.mp hx]
    exact hs
  have pos_foldl_append {α : Type} (f : α → List ℝ) (hf : ∀ a, ∀ x ∈ f a, 0 < x)
      (l : List α) : ∀ x ∈ l.foldl (fun tr a => tr ++ f a) [], 0 < x := by
    apply foldl_invariant (fun tr : List ℝ => ∀ x ∈ tr, 0 < x)
    · intro tr a htr
      exact pos_append htr (hf a)
    · exact pos_nil
  have divDivisors_pos {s : ℝ} (hs : 0 < s) : ∀ x ∈ Vector3D.divDivisors s, 0 < x := by
    intro x hx
    delta Vector3D.divDivisors at hx
    rw [if_pos (ne_of_gt hs)] at hx
    simp only [List.mem_cons, List.mem_singleton, List.not_mem_nil, or_false, or_self] at hx
    rw [hx]
    exact hs
  have normalizeDivisors_pos (a : Vector3D) : ∀ x ∈ a.normalizeDivisors, 0 < x := by
    delta Vector3D.normalizeDivisors
    split_ifs with h
    · exact divDivisors_pos h
    · exact pos_nil
  have limitDivisors_pos (a : Vector3D) (m : ℝ) : ∀ x ∈ a.limitDivisors m, 0 < x := by
    delta Vector3D.limitDivisors
    split_ifs with h
    · exact normalizeDivisors_pos a
    · exact pos_nil
  have separateStepDivisors_pos (b : Boid) (other : Boid) :
      ∀ x ∈ b.separateStepDivisors other, 0 < x := by
    delta Boid.separateStepDivisors
    dsimp only
    split_ifs with h
    · exact pos_append (normalizeDivisors_pos _) (divDivisors_pos h.1)
    · exact pos_nil
  have avoidStepDivisors_pos (b : Boid) (obs : Obstacle) :
      ∀ x ∈ b.avoidStepDivisors obs, 0 < x := by
    delta Boid.avoidStepDivisors
    dsimp only
    split_ifs with h
    · have hd : 0 ≤ b.position.distanceTo obs.position := Vector3D.magnitude_nonneg _
      exact pos_append (normalizeDivisors_pos _) (pos_singleton (lt_of_le_of_lt hd h))
    · exact pos_nil
  have seekDivisors_pos (b : Boid) (target : Vector3D) :
      ∀ x ∈ b.seekDivisors target, 0 < x := by
    delta Boid.seekDivisors
    exact pos_append (normalizeDivisors_pos _) (limitDivisors_pos _ _)
  have separateDivisors_pos (b : Boid) (boids : List Boid) :
      ∀ x ∈ b.separateDivisors boids, 0 < x := by
    delta Boid.separateDivisors
    dsimp only
    apply pos_append (pos_foldl_append _ (separateStepDivisors_pos b) boids)
    split_ifs with h
    · exact pos_append
        (pos_append (divDivisors_pos (Nat.cast_pos.mpr h))
          (normalizeDivisors_pos _))
        (limitDivisors_pos _ _)
    · exact pos_nil
  have fleeDivisors_pos (b : Boid) (target : Vector3D) (radius : ℝ) :
      ∀ x ∈ b.fleeDivisors target radius, 0 < x := by
    delta Boid.fleeDivisors
    dsimp only
    split_ifs with h
    · have hd : 0 ≤ b.position.distanceTo target := Vector3D.magnitude_nonneg _
      exact pos_append
        (pos_append (normalizeDivisors_pos _) (pos_singleton (lt_of_le_of_lt hd h)))
        (limitDivisors_pos _ _)
    · exact pos_nil
  have cohereDivisors_pos (b : Boid) (boids : List Boid) :
      ∀ x ∈ b.cohereDivisors boids, 0 < x := by
    delta Boid.cohereDivisors
    dsimp only
    split_ifs with h
    · exact pos_append (divDivisors_pos (Nat.cast_pos.mpr h)) (seekDivisors_pos b _)
    · exact pos_nil
  have avoidDivisors_pos (b : Boid) (obstacles : List Obstacle) :
      ∀ x ∈ b.avoidDivisors obstacles, 0 < x := by
    delta Boid.avoidDivisors
    dsimp only
    apply pos_append (pos_foldl_append _ (avoidStepDivisors_pos b) obstacles)
    split_ifs with h
    · exact pos_nil
    · exact pos_append (normalizeDivisors_pos _) (limitDivisors_pos _ _)
  have alignDivisors_pos (b : Boid) (boids : List Boid) :
      ∀ x ∈ b.alignDivisors boids, 0 < x := by
    delta Boid.alignDivisors
    dsimp only
    split_ifs with h
    · exact pos_append
        (pos_append (divDivisors_pos (Nat.cast_pos.mpr h))
          (normalizeDivisors_pos _))
        (limitDivisors_pos _ _)
    · exact pos_nil
  exact
    ⟨separateDivisors_pos b boids, alignDivisors_pos b boids, cohereDivisors_pos b boids,
      fleeDivisors_pos b target radius, avoidDivisors_pos b obstacles⟩

/-! ## Outward drift under containment alone -/

/-- C25: the agent `driftBoid`, at `(45, 0, 0)` outside the containment margin
with velocity `(MIN_SPEED, 0, 0)` pointing outward, ticked with boundary
containment alone at the default `boundaryWeight = 1.5`: after every number `n` of
ticks the velocity is unchanged and the agent is at `(45 + n * MIN_SPEED, 0, 0)`;
the weighted containment force has magnitude at most `0.15 < MIN_SPEED`, so the
agent never turns back. -/
theorem outward_drift (n : ℕ) :
    ∃ b : Boid,
      Simulation.updateSimulation^[n] (Simulation.containOnly driftBoid)
          = Simulation.containOnly b ∧
        b.position = ⟨45 + (n : ℝ) * MIN_SPEED, 0, 0⟩ ∧ b.velocity = ⟨MIN_SPEED, 0, 0⟩ ∧
        b.acceleration = Vector3D.zero ∧
        ((Simulation.containOnly b).boidForce b).magnitude ≤ 3 / 20 ∧ 3 / 20 < MIN_SPEED := by
  have update_axis_slow (b : Boid) (w : ℝ) (hw0 : 0 < w) (hw1 : w < 1 / 2)
      (hv : b.velocity + b.acceleration = ⟨w, 0, 0⟩) :
      b.update.velocity = ⟨1 / 2, 0, 0⟩ ∧ b.update.position = b.position + ⟨1 / 2, 0, 0⟩ ∧
        b.update.acceleration = Vector3D.zero := by
    have hmag : (⟨w, 0, 0⟩ : Vector3D).magnitude = w := by
      rw [Vector3D.magnitude_axis, abs_of_pos hw0]
    have hvel := b.update_velocity
    rw [hv, hmag, Vector3D.normalize_pos_axis hw0] at hvel
    delta MIN_SPEED MAX_SPEED at hvel
    rw [if_neg (by linarith), if_pos ⟨hw1, hw0⟩] at hvel
    have hvel2 : b.update.velocity = ⟨1 / 2, 0, 0⟩ := by
      rw [hvel]
      simp [Vector3D.mul_def]
    exact ⟨hvel2, by rw [Boid.update_position, hvel2], b.update_acceleration⟩
  -- One containment-only tick of an agent outside the margin on the `+x` side
  -- that moves outward along `+x` at `MIN_SPEED`: the velocity is unchanged and the
  -- agent is `MIN_SPEED` further out.
  have drift_tick (b : Boid) (x : ℝ) (hx : 40 < x) (hp : b.position = ⟨x, 0, 0⟩)
      (hvel : b.velocity = ⟨1 / 2, 0, 0⟩) (hacc : b.acceleration = Vector3D.zero) :
      ((b.applyForce (Vector3D.zero + b.containWithinBounds * (3 / 2 : ℝ))).update).velocity
          = ⟨1 / 2, 0, 0⟩ ∧
        ((b.applyForce (Vector3D.zero + b.containWithinBounds * (3 / 2 : ℝ))).update).position
          = ⟨x + 1 / 2, 0, 0⟩ ∧
        ((b.applyForce (Vector3D.zero + b.containWithinBounds * (3 / 2 : ℝ))).update).acceleration
          = Vector3D.zero := by
    obtain ⟨c, hc, habs, hneg⟩ := b.contain_axis x hp
    have hcb := abs_le.mp habs
    have hc0 := hneg hx
    have hsum : (b.applyForce (Vector3D.zero + b.containWithinBounds * (3 / 2 : ℝ))).velocity
        + (b.applyForce (Vector3D.zero + b.containWithinBounds * (3 / 2 : ℝ))).acceleration
        = ⟨1 / 2 + c * (3 / 2), 0, 0⟩ := by
      delta Boid.applyForce
      simp only [hvel, hacc, hc, Vector3D.zero_vadd]
      simp [Vector3D.add_def, Vector3D.mul_def]
    obtain ⟨h1, h2, h3⟩ := update_axis_slow _ (1 / 2 + c * (3 / 2)) (by linarith [hcb.1])
      (by linarith) hsum
    refine ⟨h1, ?_, h3⟩
    rw [h2]
    delta Boid.applyForce
    simp only [hp, Vector3D.add_def]
    ext <;> simp
  have hforce : ∀ b : Boid, ((Simulation.containOnly b).boidForce b).magnitude ≤ 3 / 20 := by
    intro b
    have h : (Simulation.containOnly b).boidForce b
        = Vector3D.zero + b.containWithinBounds * (3 / 2 : ℝ) := by
      delta Simulation.containOnly Simulation.boidForce
      simp
    have hc := b.magnitude_contain_le
    unfold MAX_FORCE at hc
    rw [h, Vector3D.zero_vadd, Vector3D.magnitude_mul, abs_of_pos (by norm_num)]
    linarith
  induction n with
  | zero =>
    refine ⟨driftBoid, rfl, ?_, ?_, rfl, hforce _, by unfold MIN_SPEED; norm_num⟩
    · delta driftBoid
      simp
    · delta driftBoid MIN_SPEED
      simp
  | succ n ih =>
    obtain ⟨b, hit, hp, hv, ha, _, _⟩ := ih
    have hx : (40 : ℝ) < 45 + (n : ℝ) * MIN_SPEED := by
      have hn : (0 : ℝ) ≤ (n : ℝ) := Nat.cast_nonneg n
      unfold MIN_SPEED
      nlinarith
    have hv2 : b.velocity = ⟨1 / 2, 0, 0⟩ := by
      rw [hv]
      rfl
    obtain ⟨h1, h2, h3⟩ := drift_tick b _ hx hp hv2 ha
    refine ⟨_, ?_, ?_, ?_, h3, hforce _, by unfold MIN_SPEED; norm_num⟩
    · rw [Function.iterate_succ_apply', hit]
      exact Simulation.updateSimulation_containOnly b
    · rw [h2]
      push_cast
      delta MIN_SPEED
      ext <;> simp
      ring
    · rw [h1]
      rfl

/-! ## Separation with cancelling neighbours -/

namespace Boid

theorem separateStep_hit (b : Boid) (acc : Vector3D × ℕ) (other : Boid)
    (h : b.inRange SEPARATION_RADIUS other) :
    b.separateStep acc other
      = (acc.1 + (b.position - other.position).normalize
            / b.position.distanceTo other.position, acc.2 + 1) := by
  delta separateStep
  dsimp only
  exact if_pos h

end Boid

/-- C26: for an agent with at least one neighbour inside `SEPARATION_RADIUS`
whose accumulated repulsion vectors sum to exactly zero, `separate` returns
`limit(-velocity, MAX_FORCE)`: a braking force, non-zero whenever the agent's
velocity is non-zero. -/
theorem separation_braking (b : Boid) (boids : List Boid)
    (hn : ∃ o ∈ boids, b.inRange SEPARATION_RADIUS o)
    (hs : (boids.foldl (b.separateStep) (Vector3D.zero, 0)).1 = Vector3D.zero) :
    b.separate boids
        = (⟨-b.velocity.x, -b.velocity.y, -b.velocity.z⟩ : Vector3D).limit MAX_FORCE ∧
      (b.velocity ≠ Vector3D.zero → b.separate boids ≠ Vector3D.zero) := by
  have separateStep_count_le (b : Boid) (acc : Vector3D × ℕ) (other : Boid) :
      acc.2 ≤ (b.separateStep acc other).2 := by
    delta Boid.separateStep
    dsimp only
    split_ifs
    · exact Nat.le_succ _
    · exact le_refl _
  have separate_count_mono (b : Boid) (boids : List Boid) (acc : Vector3D × ℕ) :
      acc.2 ≤ (boids.foldl (b.separateStep) acc).2 := by
    induction boids generalizing acc with
    | nil => exact le_refl _
    | cons a rest ih =>
      rw [List.foldl_cons]
      exact le_trans (separateStep_count_le b acc a) (ih _)
  -- A neighbour inside the separation radius makes `count` positive.
  have separate_count_pos (b : Boid) (boids : List Boid) (acc : Vector3D × ℕ)
      (h : ∃ o ∈ boids, b.inRange SEPARATION_RADIUS o) :
      acc.2 < (boids.foldl (b.separateStep) acc).2 := by
    induction boids generalizing acc with
    | nil =>
      obtain ⟨o, ho, _⟩ := h
      exact absurd ho (List.not_mem_nil o)
    | cons a rest ih =>
      rw [List.foldl_cons]
      by_cases ha : b.inRange SEPARATION_RADIUS a
      · have hstep : (b.separateStep acc a).2 = acc.2 + 1 := by
          rw [b.separateStep_hit acc a ha]
        have hmono := separate_count_mono b rest (b.separateStep acc a)
        omega
      · obtain ⟨o, ho, hr⟩ := h
        rcases List.mem_cons.mp ho with h1 | h2
        · rw [h1] at hr
          exact absurd hr ha
        · rw [b.separateStep_skip acc a ha]
          exact ih acc ⟨o, h2, hr⟩
  have hcount := separate_count_pos b boids (Vector3D.zero, 0) hn
  have hneg : Vector3D.zero.normalize * MAX_SPEED - b.velocity
      = ⟨-b.velocity.x, -b.velocity.y, -b.velocity.z⟩ := by
    rw [Vector3D.normalize_zero]
    delta Vector3D.zero
    simp only [Vector3D.sub_def, Vector3D.mul_def]
    ext <;> simp
  have hdiv : (Vector3D.zero / (((boids.foldl (b.separateStep) (Vector3D.zero, 0)).2 : ℕ) : ℝ))
      = Vector3D.zero := by
    rw [Vector3D.div_def]
    split_ifs
    · delta Vector3D.zero
      dsimp only
      ext <;> simp
    · rfl
  have hform : b.separate boids
      = (⟨-b.velocity.x, -b.velocity.y, -b.velocity.z⟩ : Vector3D).limit MAX_FORCE := by
    delta Boid.separate
    dsimp only
    rw [if_pos hcount, hs, hdiv, hneg]
  refine ⟨hform, ?_⟩
  intro hv hz
  rw [hform, Vector3D.limit_eq_zero_iff _ MAX_FORCE_pos] at hz
  apply hv
  have hx : -b.velocity.x = 0 := congrArg Vector3D.x hz
  have hy : -b.velocity.y = 0 := congrArg Vector3D.y hz
  have hz2 : -b.velocity.z = 0 := congrArg Vector3D.z hz
  exact Vector3D.ext (by simpa using hx) (by simpa using hy) (by simpa using hz2)

theorem slow_unit_displacement : slowBoid.position - unitBoid.position = ⟨-1, 0, 0⟩ := by
  delta unitBoid slowBoid
  simp [Vector3D.sub_def]

theorem slow_unit_inRange : slowBoid.inRange SEPARATION_RADIUS unitBoid := by
  delta Boid.inRange Vector3D.distanceTo
  rw [slow_unit_displacement, magnitude_neg_unit_x]
  exact ⟨one_pos, by unfold SEPARATION_RADIUS; norm_num⟩

/-- Witness of C26: `slowBoid` between `unitBoid` and `nearBoid`, at equal
distance on opposite sides. -/
theorem separation_braking_witness :
    ((∃ o ∈ [unitBoid, nearBoid], slowBoid.inRange SEPARATION_RADIUS o) ∧
        ([unitBoid, nearBoid].foldl (slowBoid.separateStep) (Vector3D.zero, 0)).1
          = Vector3D.zero) ∧
      (slowBoid.separate [unitBoid, nearBoid]
          = (⟨-slowBoid.velocity.x, -slowBoid.velocity.y, -slowBoid.velocity.z⟩ :
              Vector3D).limit MAX_FORCE ∧
        (slowBoid.velocity ≠ Vector3D.zero →
          slowBoid.separate [unitBoid, nearBoid] ≠ Vector3D.zero)) := by
  -- The repulsions of `unitBoid` (at `(1, 0, 0)`) and `nearBoid` (at `(-1, 0, 0)`)
  -- on `slowBoid` (at the origin) cancel.
  have slow_between_cancel :
      ([unitBoid, nearBoid].foldl (slowBoid.separateStep) (Vector3D.zero, 0)).1
        = Vector3D.zero := by
    have h1 : slowBoid.separateStep (Vector3D.zero, 0) unitBoid = (⟨-1, 0, 0⟩, 1) := by
      rw [Boid.separateStep_hit _ _ _ slow_unit_inRange]
      delta Vector3D.distanceTo
      dsimp only
      rw [slow_unit_displacement, magnitude_neg_unit_x,
        Vector3D.normalize_of_unit _ magnitude_neg_unit_x, Vector3D.div_one, Vector3D.zero_vadd]
    have h2 : slowBoid.separateStep (⟨-1, 0, 0⟩, 1) nearBoid = (⟨0, 0, 0⟩, 2) := by
      rw [Boid.separateStep_hit _ _ _ slow_near_inRange]
      delta Vector3D.distanceTo
      dsimp only
      rw [slow_near_displacement, magnitude_unit_x,
        Vector3D.normalize_of_unit _ magnitude_unit_x, Vector3D.div_one]
      simp [Vector3D.add_def]
    rw [List.foldl_cons, List.foldl_cons, List.foldl_nil, h1, h2]
    rfl
  exact
    ⟨⟨⟨unitBoid, List.mem_cons_self _ _, slow_unit_inRange⟩, slow_between_cancel⟩,
      separation_braking slowBoid [unitBoid, nearBoid]
        ⟨unitBoid, List.mem_cons_self _ _, slow_unit_inRange⟩ slow_between_cancel⟩

/-! ## Order independence of the neighbour and obstacle scans -/

/-- C27: in exact arithmetic, `separate`, `align` and `cohere` return the same
vector for any permutation of the population list, and `avoidObstacles` returns
the same vector for any permutation of the obstacle list. -/
theorem scan_order_independent (b : Boid) (boids₁ boids₂ : List Boid)
    (obstacles₁ obstacles₂ : List Obstacle) (hb : boids₁.Perm boids₂)
    (ho : obstacles₁.Perm obstacles₂) :
    b.separate boids₁ = b.separate boids₂ ∧ b.align boids₁ = b.align boids₂ ∧
      b.cohere boids₁ = b.cohere boids₂ ∧
      b.avoidObstacles obstacles₁ = b.avoidObstacles obstacles₂ := by
  have vadd_right_comm (a b c : Vector3D) : a + b + c = a + c + b := by
    rw [Vector3D.vadd_assoc, Vector3D.vadd_comm b c, ← Vector3D.vadd_assoc]
  -- A plain accumulation that adds `g a` for the elements satisfying `p` and skips
  -- the others gives the same state whichever of two elements is processed first.
  have sum_step_right_comm {α : Type} (f : Vector3D → α → Vector3D) (p : α → Prop)
      (g : α → Vector3D) (hhit : ∀ acc a, p a → f acc a = acc + g a)
      (hskip : ∀ acc a, ¬ p a → f acc a = acc) (acc : Vector3D) (x y : α) :
      f (f acc x) y = f (f acc y) x := by
    by_cases hx : p x <;> by_cases hy : p y
    · rw [hhit acc x hx, hhit _ y hy, hhit acc y hy, hhit _ x hx, vadd_right_comm]
    · rw [hskip _ y hy, hskip acc y hy]
    · rw [hskip acc x hx, hskip _ x hx]
    · rw [hskip acc x hx, hskip acc y hy, hskip acc x hx]
  have avoidStep_right_comm (b : Boid) (steer : Vector3D) (x y : Obstacle) :
      b.avoidStep (b.avoidStep steer x) y = b.avoidStep (b.avoidStep steer y) x :=
    sum_step_right_comm (b.avoidStep) (b.nearObstacle) (b.awayTerm)
      (fun acc a h => by rw [Boid.avoidStep_eq, if_pos h])
      (fun acc a h => by rw [Boid.avoidStep_eq, if_neg h]) steer x y
  -- A counting accumulation that adds `g a` for the elements satisfying `p` and
  -- skips the others gives the same state whichever of two elements is processed
  -- first.
  have count_step_right_comm {α : Type} (f : Vector3D × ℕ → α → Vector3D × ℕ) (p : α → Prop)
      (g : α → Vector3D) (hhit : ∀ acc a, p a → f acc a = (acc.1 + g a, acc.2 + 1))
      (hskip : ∀ acc a, ¬ p a → f acc a = acc) (acc : Vector3D × ℕ) (x y : α) :
      f (f acc x) y = f (f acc y) x := by
    by_cases hx : p x <;> by_cases hy : p y
    · rw [hhit acc x hx, hhit _ y hy, hhit acc y hy, hhit _ x hx]
      dsimp only
      rw [vadd_right_comm]
    · rw [hskip _ y hy, hskip acc y hy]
    · rw [hskip acc x hx, hskip _ x hx]
    · rw [hskip acc x hx, hskip acc y hy, hskip acc x hx]
  have cohereStep_hit (b : Boid) (acc : Vector3D × ℕ) (other : Boid)
      (h : b.inRange COHESION_RADIUS other) :
      b.cohereStep acc other = (acc.1 + other.position, acc.2 + 1) := by
    delta Boid.cohereStep
    dsimp only
    exact if_pos h
  have alignStep_hit (b : Boid) (acc : Vector3D × ℕ) (other : Boid)
      (h : b.inRange ALIGNMENT_RADIUS other) :
      b.alignStep acc other = (acc.1 + other.velocity, acc.2 + 1) := by
    delta Boid.alignStep
    dsimp only
    exact if_pos h
  have cohereStep_right_comm (b : Boid) (acc : Vector3D × ℕ) (x y : Boid) :
      b.cohereStep (b.cohereStep acc x) y = b.cohereStep (b.cohereStep acc y) x :=
    count_step_right_comm (b.cohereStep) (b.inRange COHESION_RADIUS) (fun o => o.position)
      (cohereStep_hit b) (b.cohereStep_skip) acc x y
  have alignStep_right_comm (b : Boid) (acc : Vector3D × ℕ) (x y : Boid) :
      b.alignStep (b.alignStep acc x) y = b.alignStep (b.alignStep acc y) x :=
    count_step_right_comm (b.alignStep) (b.inRange ALIGNMENT_RADIUS) (fun o => o.velocity)
      (alignStep_hit b) (b.alignStep_skip) acc x y
  have separateStep_right_comm (b : Boid) (acc : Vector3D × ℕ) (x y : Boid) :
      b.separateStep (b.separateStep acc x) y = b.separateStep (b.separateStep acc y) x :=
    count_step_right_comm (b.separateStep) (b.inRange SEPARATION_RADIUS)
      (fun o => (b.position - o.position).normalize / b.position.distanceTo o.position)
      (b.separateStep_hit) (b.separateStep_skip) acc x y
  have h1 : boids₁.foldl (b.separateStep) (Vector3D.zero, 0)
      = boids₂.foldl (b.separateStep) (Vector3D.zero, 0) :=
    hb.foldl_eq' (fun x _ y _ z => separateStep_right_comm b z x y) _
  have h2 : boids₁.foldl (b.alignStep) (Vector3D.zero, 0)
      = boids₂.foldl (b.alignStep) (Vector3D.zero, 0) :=
    hb.foldl_eq' (fun x _ y _ z => alignStep_right_comm b z x y) _
  have h3 : boids₁.foldl (b.cohereStep) (Vector3D.zero, 0)
      = boids₂.foldl (b.cohereStep) (Vector3D.zero, 0) :=
    hb.foldl_eq' (fun x _ y _ z => cohereStep_right_comm b z x y) _
  have h4 : obstacles₁.foldl (b.avoidStep) Vector3D.zero
      = obstacles₂.foldl (b.avoidStep) Vector3D.zero :=
    ho.foldl_eq' (fun x _ y _ z => avoidStep_right_comm b z x y) _
  refine ⟨?_, ?_, ?_, ?_⟩
  · delta Boid.separate
    simp only [h1]
  · delta Boid.align
    simp only [h2]
  · delta Boid.cohere
    simp only [h3]
  · delta Boid.avoidObstacles
    simp only [h4]

/-- Witness of C27: two agents and the first two obstacles of `initObstacles`,
each pair in both orders. -/
theorem scan_order_independent_witness :
    slowBoid.separate [unitBoid, nearBoid] = slowBoid.separate [nearBoid, unitBoid] ∧
      slowBoid.align [unitBoid, nearBoid] = slowBoid.align [nearBoid, unitBoid] ∧
      slowBoid.cohere [unitBoid, nearBoid] = slowBoid.cohere [nearBoid, unitBoid] ∧
      slowBoid.avoidObstacles [firstObstacle, secondObstacle]
        = slowBoid.avoidObstacles [secondObstacle, firstObstacle] :=
  scan_order_independent slowBoid [unitBoid, nearBoid] [nearBoid, unitBoid]
    [firstObstacle, secondObstacle] [secondObstacle, firstObstacle]
    (List.Perm.swap nearBoid unitBoid []) (List.Perm.swap secondObstacle firstObstacle [])

/-! ## Bank angle -/

namespace F32

/-- Rounding of `0`, and of a power of two `2 ^ k`: to `0` when `k ≤ -151` (below
half the smallest subnormal), exact when `-126 ≤ k ≤ 127`, to `+∞` when
`128 ≤ k`. -/
theorem round_zpow (k : ℤ) :
    round 0 = fin 0 ∧
      (k ≤ -151 → round ((2 : ℝ) ^ k) = fin 0) ∧
      (-126 ≤ k → k ≤ 127 → round ((2 : ℝ) ^ k) = fin ((2 : ℝ) ^ k)) ∧
      (128 ≤ k → round ((2 : ℝ) ^ k) = inf false) := by
  have hpos : (0 : ℝ) < (2 : ℝ) ^ k := zpow_pos (by norm_num) k
  have hint : ∀ m : ℤ, nearestEven (m : ℝ) = m := by
    intro m
    delta nearestEven
    simp only [Int.floor_intCast, sub_self]
    rw [if_pos (by norm_num)]
  have hsmall : ∀ x : ℝ, 0 ≤ x → x < 1 / 2 → nearestEven x = 0 := by
    intro x h0 h1
    have hf : ⌊x⌋ = 0 := Int.floor_eq_zero_iff.mpr ⟨h0, by linarith⟩
    delta nearestEven
    simp only [hf, Int.cast_zero, sub_zero]
    rw [if_pos h1]
  have hquantum : quantum ((2 : ℝ) ^ k) = (2 : ℝ) ^ (max k (-126) - 23) := by
    have hlog : Int.log 2 ((2 : ℝ) ^ k) = k := by
      have h := Int.log_zpow (R := ℝ) (b := 2) (by norm_num) k
      simpa using h
    delta quantum
    rw [abs_of_pos hpos, hlog]
  have hratio : |(2 : ℝ) ^ k| / (2 : ℝ) ^ (k - 23) = ((8388608 : ℤ) : ℝ) := by
    rw [abs_of_pos hpos, ← zpow_sub₀ (by norm_num : (2 : ℝ) ≠ 0)]
    have : k - (k - 23) = 23 := by ring
    rw [this]
    norm_num
  have hr : ((8388608 : ℤ) : ℝ) * (2 : ℝ) ^ (k - 23) = (2 : ℝ) ^ k := by
    have h23 : ((8388608 : ℤ) : ℝ) = (2 : ℝ) ^ (23 : ℤ) := by norm_num
    rw [h23, ← zpow_add₀ (by norm_num : (2 : ℝ) ≠ 0)]
    congr 1
    ring
  refine ⟨?_, ?_, ?_, ?_⟩
  · delta round
    simp only [abs_zero, zero_div]
    rw [hsmall 0 (le_refl 0) (by norm_num)]
    simp only [Int.cast_zero, zero_mul, lt_irrefl, if_false]
    rw [if_neg (not_le.mpr (zpow_pos (by norm_num) _))]
  · intro h
    have hq : quantum ((2 : ℝ) ^ k) = (2 : ℝ) ^ (-149 : ℤ) := by
      rw [hquantum, max_eq_right (by omega)]
      norm_num
    have hdiv : |(2 : ℝ) ^ k| / (2 : ℝ) ^ (-149 : ℤ) = (2 : ℝ) ^ (k + 149) := by
      rw [abs_of_pos hpos, ← zpow_sub₀ (by norm_num : (2 : ℝ) ≠ 0)]
      congr 1
    have hlt : (2 : ℝ) ^ (k + 149) < 1 / 2 := by
      have h1 : (2 : ℝ) ^ (k + 149) ≤ (2 : ℝ) ^ (-2 : ℤ) :=
        zpow_le_zpow_right₀ (by norm_num) (by omega)
      have h2 : (2 : ℝ) ^ (-2 : ℤ) < 1 / 2 := by norm_num
      exact lt_of_le_of_lt h1 h2
    delta round
    dsimp only
    rw [hq, hdiv, hsmall _ (le_of_lt (zpow_pos (by norm_num) _)) hlt]
    simp only [Int.cast_zero, zero_mul, neg_zero, ite_self]
    rw [if_neg (not_le.mpr (zpow_pos (by norm_num) _))]
  · intro h1 h2
    have hq : quantum ((2 : ℝ) ^ k) = (2 : ℝ) ^ (k - 23) := by
      rw [hquantum, max_eq_left h1]
    delta round
    dsimp only
    rw [hq, hratio, hint, hr,
      if_neg (not_le.mpr (zpow_lt_zpow_right₀ (by norm_num) (by omega))),
      if_neg (not_lt.mpr (le_of_lt hpos))]
  · intro h
    have hq : quantum ((2 : ℝ) ^ k) = (2 : ℝ) ^ (k - 23) := by
      rw [hquantum, max_eq_left (by omega)]
    delta round
    dsimp only
    rw [hq, hratio, hint, hr, if_pos (zpow_le_zpow_right₀ (by norm_num) h),
      decide_eq_false (not_lt.mpr (le_of_lt hpos))]

/-- Binary32 arithmetic on zeros is exact. -/
theorem zero_arith (t : ℝ) :
    add (fin 0) (fin 0) = fin 0 ∧ mul (fin 0) (fin t) = fin 0 ∧ sqrt (fin 0) = fin 0 := by
  have h0 : round 0 = fin 0 := (round_zpow 0).1
  refine ⟨?_, ?_, ?_⟩
  · show round (0 + 0) = fin 0
    rw [add_zero]
    exact h0
  · show round (0 * t) = fin 0
    rw [zero_mul]
    exact h0
  · show (if (0 : ℝ) < 0 then nan else round (Real.sqrt 0)) = fin 0
    rw [if_neg (lt_irrefl 0), Real.sqrt_zero]
    exact h0

end F32

/-! ## Binary32: evaluation at an underflowing and at an overflowing input -/

/-- The value `2 ^ (-100)` is a positive binary32 number below `MIN_SPEED` whose
computed square is `0`. -/
theorem tiny_facts :
    0 < tiny ∧ tiny < 1 / 2 ∧ F32.round tiny = F32.fin tiny ∧
      F32.mul (F32.fin tiny) (F32.fin tiny) = F32.fin 0 := by
  have hsq : tiny * tiny = (2 : ℝ) ^ (-200 : ℤ) := by
    delta tiny
    rw [← zpow_add₀ (by norm_num : (2 : ℝ) ≠ 0)]
    norm_num
  have h1 : tiny ≤ (2 : ℝ) ^ (-2 : ℤ) := zpow_le_zpow_right₀ (by norm_num) (by norm_num)
  have h2 : (2 : ℝ) ^ (-2 : ℤ) < 1 / 2 := by norm_num
  refine ⟨zpow_pos (by norm_num) _, lt_of_le_of_lt h1 h2,
    (F32.round_zpow (-100)).2.2.1 (by norm_num) (by norm_num), ?_⟩
  show F32.round (tiny * tiny) = F32.fin 0
  rw [hsq]
  exact (F32.round_zpow (-200)).2.1 (by norm_num)

/-- The value `2 ^ 64` is a binary32 number above `MAX_SPEED` whose computed
square is `+∞`. -/
theorem huge_facts :
    0 < huge ∧ 2 < huge ∧ F32.round huge = F32.fin huge ∧
      F32.mul (F32.fin huge) (F32.fin huge) = F32.inf false := by
  have hsq : huge * huge = (2 : ℝ) ^ (128 : ℤ) := by
    delta huge
    rw [← zpow_add₀ (by norm_num : (2 : ℝ) ≠ 0)]
    norm_num
  have h1 : (2 : ℝ) ^ (2 : ℤ) ≤ huge := zpow_le_zpow_right₀ (by norm_num) (by norm_num)
  have h2 : (2 : ℝ) < (2 : ℝ) ^ (2 : ℤ) := by norm_num
  refine ⟨zpow_pos (by norm_num) _, lt_of_lt_of_le h2 h1,
    (F32.round_zpow 64).2.2.1 (by norm_num) (by norm_num), ?_⟩
  show F32.round (huge * huge) = F32.inf false
  rw [hsq]
  exact (F32.round_zpow 128).2.2.2 (by norm_num)

namespace Vector3D32

/-- The computed magnitude of the zero vector and of `(2 ^ (-100), 0, 0)` is `0`:
the square of `2 ^ (-100)` underflows. -/
theorem magnitude_tiny :
    zero.magnitude = F32.fin 0 ∧
      magnitude ⟨F32.fin tiny, F32.fin 0, F32.fin 0⟩ = F32.fin 0 := by
  have hz := F32.zero_arith 0
  refine ⟨?_, ?_⟩
  · show F32.sqrt (((F32.mul (F32.fin 0) (F32.fin 0)).add
        (F32.mul (F32.fin 0) (F32.fin 0))).add (F32.mul (F32.fin 0) (F32.fin 0))) = F32.fin 0
    rw [hz.2.1, hz.1, hz.1, hz.2.2]
  · show F32.sqrt (((F32.mul (F32.fin tiny) (F32.fin tiny)).add
        (F32.mul (F32.fin 0) (F32.fin 0))).add (F32.mul (F32.fin 0) (F32.fin 0))) = F32.fin 0
    rw [tiny_facts.2.2.2, hz.2.1, hz.1, hz.1, hz.2.2]

/-- The computed magnitude of `(2 ^ 64, 0, 0)` is `+∞`, because the square
overflows; `normalize()` then divides by `+∞` and returns the zero vector, and
so does every multiple of it. -/
theorem magnitude_huge (t : ℝ) :
    magnitude ⟨F32.fin huge, F32.fin 0, F32.fin 0⟩ = F32.inf false ∧
      normalize ⟨F32.fin huge, F32.fin 0, F32.fin 0⟩ = zero ∧
      (normalize ⟨F32.fin huge, F32.fin 0, F32.fin 0⟩).mul (F32.fin t) = zero := by
  have hmag : magnitude ⟨F32.fin huge, F32.fin 0, F32.fin 0⟩ = F32.inf false := by
    show F32.sqrt (((F32.mul (F32.fin huge) (F32.fin huge)).add
        (F32.mul (F32.fin 0) (F32.fin 0))).add (F32.mul (F32.fin 0) (F32.fin 0))) = F32.inf false
    rw [huge_facts.2.2.2, (F32.zero_arith 0).2.1]
    rfl
  have hnorm : normalize ⟨F32.fin huge, F32.fin 0, F32.fin 0⟩ = zero := by
    delta normalize
    dsimp only
    rw [hmag]
    rfl
  refine ⟨hmag, hnorm, ?_⟩
  rw [hnorm]
  show (⟨F32.mul (F32.fin 0) (F32.fin t), F32.mul (F32.fin 0) (F32.fin t),
    F32.mul (F32.fin 0) (F32.fin t)⟩ : Vector3D32) = zero
  rw [(F32.zero_arith t).2.1]
  rfl

end Vector3D32

namespace Boid32

theorem update_velocity32 (b : Boid32) :
    b.update.velocity =
      if F32.lt (F32.fin 2) (b.velocity.add b.acceleration).magnitude then
        (b.velocity.add b.acceleration).normalize.mul (F32.fin 2)
      else if F32.lt (b.velocity.add b.acceleration).magnitude (F32.fin (1 / 2))
          && F32.lt (F32.fin 0) (b.velocity.add b.acceleration).magnitude then
        (b.velocity.add b.acceleration).normalize.mul (F32.fin (1 / 2))
      else b.velocity.add b.acceleration := rfl

theorem resting_sum (a : ℝ) (ha : F32.round a = F32.fin a) :
    (restingBoid32 a).velocity.add (restingBoid32 a).acceleration
      = ⟨F32.fin a, F32.fin 0, F32.fin 0⟩ := by
  show (⟨F32.round (0 + a), F32.round (0 + 0), F32.round (0 + 0)⟩ : Vector3D32) = _
  rw [zero_add, zero_add, ha, (F32.round_zpow 0).1]

end Boid32

/-! ## Where binary32 parts from exact arithmetic -/

/-- C1 fails on the binary32 code: an agent at rest whose accumulated
acceleration is `(2 ^ (-100), 0, 0)` has after `Boid::update` the velocity
`(2 ^ (-100), 0, 0)`, which is not the zero vector and has magnitude `2 ^ (-100)`,
below `MIN_SPEED`: the square underflows, `magnitude()` returns `0` and the
branch `speed < MIN_SPEED && speed > 0` is not taken. -/
theorem speed_bound_underflow_counterexample :
    (restingBoid32 tiny).update.velocity = ⟨F32.fin tiny, F32.fin 0, F32.fin 0⟩ ∧
      (⟨F32.fin tiny, F32.fin 0, F32.fin 0⟩ : Vector3D32) ≠ Vector3D32.zero ∧
      (⟨tiny, 0, 0⟩ : Vector3D).magnitude < MIN_SPEED ∧
      (restingBoid32 tiny).update.velocity.magnitude = F32.fin 0 := by
  -- In binary32 an agent at rest with acceleration `(2 ^ (-100), 0, 0)` keeps
  -- that vector as its velocity: the computed speed is `0`, so neither branch of the
  -- speed clamp is taken.
  have update_tiny :
      (restingBoid32 tiny).update.velocity = ⟨F32.fin tiny, F32.fin 0, F32.fin 0⟩ := by
    have h1 : F32.lt (F32.fin 2) (F32.fin 0) = false := decide_eq_false (by norm_num)
    have h2 : F32.lt (F32.fin 0) (F32.fin 0) = false := decide_eq_false (lt_irrefl 0)
    rw [Boid32.update_velocity32, Boid32.resting_sum tiny tiny_facts.2.2.1, Vector3D32.magnitude_tiny.2, h1, h2,
      Bool.and_false, if_neg Bool.false_ne_true, if_neg Bool.false_ne_true]
  refine ⟨update_tiny, ?_, ?_, ?_⟩
  · intro h
    have hx : F32.fin tiny = F32.fin 0 := congrArg Vector3D32.x h
    exact absurd (F32.noConfusion hx id) (ne_of_gt tiny_facts.1)
  · rw [Vector3D.magnitude_axis, abs_of_pos tiny_facts.1]
    exact tiny_facts.2.1
  · rw [update_tiny]
    exact Vector3D32.magnitude_tiny.2

/-- C20 fails on the binary32 code: for an agent at rest with accumulated
acceleration `w = (2 ^ 64, 0, 0)`, of magnitude above `MAX_SPEED`, the velocity
after `Boid::update` is the zero vector, not `w` rescaled to magnitude
`MAX_SPEED`, which is `(2, 0, 0)`: the square overflows, `magnitude()` returns
`+∞` and `normalize()` divides by it. -/
theorem integration_overflow_counterexample :
    (restingBoid32 huge).velocity.add (restingBoid32 huge).acceleration
        = ⟨F32.fin huge, F32.fin 0, F32.fin 0⟩ ∧
      MAX_SPEED < (⟨huge, 0, 0⟩ : Vector3D).magnitude ∧
      (restingBoid32 huge).update.velocity = Vector3D32.zero ∧
      (restingBoid32 huge).update.velocity ≠ ⟨F32.fin 2, F32.fin 0, F32.fin 0⟩ := by
  -- In binary32 an agent at rest with acceleration `(2 ^ 64, 0, 0)` ends with the
  -- zero velocity: the computed speed is `+∞` and `normalize()` returns zero.
  have update_huge : (restingBoid32 huge).update.velocity = Vector3D32.zero := by
    have h1 : F32.lt (F32.fin 2) (F32.inf false) = true := rfl
    rw [Boid32.update_velocity32, Boid32.resting_sum huge huge_facts.2.2.1, (Vector3D32.magnitude_huge 2).1, h1,
      if_pos rfl, (Vector3D32.magnitude_huge 2).2.2]
  refine ⟨Boid32.resting_sum huge huge_facts.2.2.1, ?_, update_huge, ?_⟩
  · rw [Vector3D.magnitude_axis, abs_of_pos huge_facts.1]
    exact huge_facts.2.1
  · rw [update_huge]
    intro h
    have hx : F32.fin 0 = F32.fin 2 := congrArg Vector3D32.x h
    have h02 : (0 : ℝ) = 2 := F32.noConfusion hx id
    norm_num at h02

/-- C17 fails on the binary32 code: the points `(2 ^ (-100), 0, 0)` and
`(0, 0, 0)` differ, yet `distanceTo` returns `0` for them, because the square of
the difference underflows. -/
theorem distance_underflow_counterexample :
    Vector3D32.distanceTo ⟨F32.fin tiny, F32.fin 0, F32.fin 0⟩ Vector3D32.zero = F32.fin 0 ∧
      (⟨F32.fin tiny, F32.fin 0, F32.fin 0⟩ : Vector3D32) ≠ Vector3D32.zero := by
  refine ⟨?_, ?_⟩
  · have hsub : Vector3D32.sub ⟨F32.fin tiny, F32.fin 0, F32.fin 0⟩ Vector3D32.zero
        = ⟨F32.fin tiny, F32.fin 0, F32.fin 0⟩ := by
      show (⟨F32.round (tiny + -0), F32.round (0 + -0), F32.round (0 + -0)⟩ : Vector3D32) = _
      rw [neg_zero, add_zero, add_zero, tiny_facts.2.2.1, (F32.round_zpow 0).1]
    show Vector3D32.magnitude
      (Vector3D32.sub ⟨F32.fin tiny, F32.fin 0, F32.fin 0⟩ Vector3D32.zero) = F32.fin 0
    rw [hsub]
    exact Vector3D32.magnitude_tiny.2
  · intro h
    have hx : F32.fin tiny = F32.fin 0 := congrArg Vector3D32.x h
    exact absurd (F32.noConfusion hx id) (ne_of_gt tiny_facts.1)

/-- C15 fails on the binary32 code: `limit(0.1f)` of `(2 ^ 64, 0, 0)`, whose
magnitude is above the bound, returns the zero vector, not a vector along the
input of magnitude `0.1f`: the square overflows, `magnitude()` returns `+∞` and
`normalize()` divides by it. -/
theorem limit_overflow_counterexample :
    (1 / 10 : ℝ) < (⟨huge, 0, 0⟩ : Vector3D).magnitude ∧
      Vector3D32.limit ⟨F32.fin huge, F32.fin 0, F32.fin 0⟩ F32.tenth = Vector3D32.zero ∧
      Vector3D32.zero.magnitude = F32.fin 0 := by
  refine ⟨?_, ?_, Vector3D32.magnitude_tiny.1⟩
  · rw [Vector3D.magnitude_axis, abs_of_pos huge_facts.1]
    linarith [huge_facts.2.1]
  · have h1 : F32.lt F32.tenth (F32.inf false) = true := rfl
    delta Vector3D32.limit
    dsimp only
    rw [(Vector3D32.magnitude_huge (13421773 / 134217728)).1, h1, if_pos rfl]
    exact (Vector3D32.magnitude_huge (13421773 / 134217728)).2.2
